import Mathlib

/-!
# robot_model_to_pointcloud: a shallow embedding of `main`

The program `src/robot_model_to_pointcloud.cpp` is one `main` function: it reads
four parameters, builds a `std::map` from link names to (link, visual mesh),
and then loops: wait for a robot state, transform every mesh vertex of every
stored link by the link's collision-body transform, write the result into a
re-used `sensor_msgs::PointCloud`, publish, and pace the loop.

Conventions of the embedding.

* Coordinates live in an arbitrary type `α` with `+` and `*` (exact arithmetic:
  the rounding of `double` and the narrowing to `float` are not modelled).
* Durations (`ros::Duration`) are whole numbers of nanoseconds, as in `rostime`;
  the quotient `1./publish_frequency` that line 96 converts is taken exact.
* The counters `i`, `j`, `link_nb` and the `vertex_count` of a mesh are natural
  numbers (no 32-bit wrap-around).
* `std::vector` is a `List`; an access `v[j]` with `j` past the end, and a
  dereference of a null mesh pointer, are undefined behaviour in C++ and are
  faults (`Except.error`) here.
* The external collaborators (parameter server, robot model, mesh loader,
  state monitor, clock) are inputs: `Params`, `World`, `CycleInput`.
* Debug-level log statements are not modelled; the other log statements,
  every `publish` and every `sleep` are events of the trace. A `publish` event
  carries the `sensor_msgs::PointCloud` that line 227 converts and line 228 sends.
-/

namespace RobotModelToPointcloud

/-! ## Geometry types -/

/-- Column vector of three coordinates (`Eigen::Vector3d`). -/
structure Vector3d (α : Type) where
  x : α
  y : α
  z : α
deriving DecidableEq, Repr

/-- Three by three matrix, row by row (the linear part of an `Eigen::Affine3d`). -/
structure Matrix3d (α : Type) where
  m00 : α
  m01 : α
  m02 : α
  m10 : α
  m11 : α
  m12 : α
  m20 : α
  m21 : α
  m22 : α
deriving DecidableEq, Repr

/-- Matrix times column vector. -/
def Matrix3d.mulVec {α : Type} [Add α] [Mul α] (R : Matrix3d α) (v : Vector3d α) :
    Vector3d α :=
  ⟨R.m00 * v.x + R.m01 * v.y + R.m02 * v.z,
   R.m10 * v.x + R.m11 * v.y + R.m12 * v.z,
   R.m20 * v.x + R.m21 * v.y + R.m22 * v.z⟩

/-- Coordinate-wise sum of two vectors. -/
def Vector3d.add {α : Type} [Add α] (u v : Vector3d α) : Vector3d α :=
  ⟨u.x + v.x, u.y + v.y, u.z + v.z⟩

/-- Affine transform (`Eigen::Affine3d`): a linear part and a translation. -/
structure Affine3d (α : Type) where
  linear : Matrix3d α
  translation : Vector3d α
deriving DecidableEq, Repr

/-- The product `Transform * vertice` of Eigen: linear part applied to the vector,
plus the translation. -/
def Affine3d.mul {α : Type} [Add α] [Mul α] (T : Affine3d α) (v : Vector3d α) :
    Vector3d α :=
  (T.linear.mulVec v).add T.translation

/-- Point of a cloud (`geometry_msgs::Point32`). -/
structure Point32 (α : Type) where
  x : α
  y : α
  z : α
deriving DecidableEq, Repr

/-- Triangle mesh (`shapes::Mesh`): `vertex_count` vertices stored as a flat array
of `3 * vertex_count` coordinates, vertex `k` at positions `3k`, `3k+1`, `3k+2`.
The size of the array is the class invariant of `shapes::Mesh`. -/
structure Mesh (α : Type) where
  vertex_count : Nat
  vertices : List α
  size_eq : vertices.length = 3 * vertex_count

/-- Type tag of a shape (`shapes::ShapeType`). -/
inductive ShapeType where
  | UNKNOWN_SHAPE
  | SPHERE
  | CYLINDER
  | CONE
  | BOX
  | PLANE
  | MESH
  | OCTREE
deriving DecidableEq, Repr

/-- Collision shape of a link (`shapes::Shape`); only a mesh carries data the
program reads. -/
inductive Shape (α : Type) where
  | sphere
  | cylinder
  | cone
  | box
  | plane
  | mesh (m : Mesh α)
  | octree

/-- The field `shape->type`. -/
def Shape.type {α : Type} : Shape α → ShapeType
  | .sphere => .SPHERE
  | .cylinder => .CYLINDER
  | .cone => .CONE
  | .box => .BOX
  | .plane => .PLANE
  | .mesh _ => .MESH
  | .octree => .OCTREE

/-- The `static_cast<const shapes::Mesh*>` of line 153, defined for shapes of type
`MESH`. -/
def Shape.asMesh {α : Type} : Shape α → Option (Mesh α)
  | .mesh m => some m
  | _ => none

/-- Link of the robot model (`moveit::core::LinkModel`): the three accessors the
program calls. -/
structure LinkModel (α : Type) where
  getName : String
  getVisualMeshFilename : String
  getShapes : List (Shape α)

/-- Robot state: the accessor `getCollisionBodyTransform(link, index)`. -/
structure RobotState (α : Type) where
  getCollisionBodyTransform : LinkModel α → Nat → Affine3d α

/-! ## The mesh store (`meshesMap`) -/

/-- The `linkMap` typedef: a link and the mesh loaded for it (null when the
loader failed). -/
abbrev linkMap (α : Type) := LinkModel α × Option (Mesh α)

/-- The `meshesMap` typedef, a `std::map` keyed by link name: its entries, in the
order an iteration visits them. Keys are compared as `std::string` compares them,
character by character with a proper prefix first, which is the order `<` of
`String`. -/
abbrev meshesMap (α : Type) := List (String × linkMap α)

/-- The assignment `meshes[k] = v` on a `std::map`: a new key is placed at its
position in ascending key order, an existing key keeps its position and
gets the new value. -/
def meshesMap.assign {α : Type} (k : String) (v : linkMap α) : meshesMap α → meshesMap α
  | [] => [(k, v)]
  | (k', v') :: rest =>
    if k < k' then (k, v) :: (k', v') :: rest
    else if k' < k then (k', v') :: meshesMap.assign k v rest
    else (k, v) :: rest

/-! ## Messages and events -/

/-- Channel of a cloud (`sensor_msgs::ChannelFloat32`); the values the program
stores are link numbers. -/
structure ChannelFloat32 where
  name : String
  values : List Nat
deriving DecidableEq, Repr

/-- The cloud message (`sensor_msgs::PointCloud`) with its header fields. -/
structure PointCloud (α : Type) where
  frame_id : String
  stamp : Nat
  points : List (Point32 α)
  channels : List ChannelFloat32
deriving DecidableEq, Repr

/-- Observable actions of the program, in the order they happen. -/
inductive Event (α : Type) where
  | info (msg : String)
  | warn (msg : String)
  | error (msg : String)
  | infoThrottle (period : Nat) (msg : String)
  | publish (cloud : PointCloud α)
  | sleep (nsec : Int)
deriving DecidableEq

/-- Ways the process can break: a null mesh pointer is dereferenced (line 188), a
vector is indexed past its end (lines 176, 177), `channels[0]` is assigned in an
empty vector (line 224), or the period is not a finite duration (line 96). -/
inductive Fault where
  | nullMesh
  | slotOutOfRange
  | noChannel
  | badDuration
deriving DecidableEq, Repr

/-! ## The transform stage (lines 125 to 216) -/

/-- The part of the loop state the vertex loops touch: `cloud.points`,
`link_info_channel.values` and the cursor `j`. -/
structure Buf (α : Type) where
  points : List (Point32 α)
  values : List Nat
  j : Nat
deriving DecidableEq, Repr

/-- Lines 169 to 180: append the point and its tag on the first pass, overwrite
slot `j` afterwards, and advance `j`. -/
def writePoint {α : Type} (initialized : Bool) (pt : Point32 α) (link_nb : Nat)
    (b : Buf α) : Except Fault (Buf α) :=
  if !initialized then
    .ok ⟨b.points ++ [pt], b.values ++ [link_nb], b.j + 1⟩
  else if b.j < b.points.length ∧ b.j < b.values.length then
    .ok ⟨b.points.set b.j pt, b.values.set b.j link_nb, b.j + 1⟩
  else
    .error .slotOutOfRange

/-- Lines 159 to 167: the vertex at array index `i`, transformed, as a point. -/
def transformVertex {α : Type} [Add α] [Mul α] (Transform : Affine3d α)
    (x y z : α) : Point32 α :=
  let vertice : Vector3d α := ⟨x, y, z⟩
  let vertice_transformed := Transform.mul vertice
  ⟨vertice_transformed.x, vertice_transformed.y, vertice_transformed.z⟩

/-- The loop `for (i = 0; i < 3 * vertex_count; i = i + 3)` of lines 157 and 188,
entered at index `i` with `n` iterations left: the equation `i + 3 * n =
3 * vertex_count` makes the guard `i < 3 * vertex_count` true exactly when `n` is
not zero, and keeps the three array reads inside the array. -/
def vertexLoop {α : Type} [Add α] [Mul α] (initialized : Bool) (Transform : Affine3d α)
    (mesh : Mesh α) (link_nb : Nat) :
    (n i : Nat) → i + 3 * n = 3 * mesh.vertex_count → Buf α → Except Fault (Buf α)
  | 0, _, _, b => .ok b
  | n + 1, i, h, b =>
    have hs := mesh.size_eq
    let pt := transformVertex Transform
      (mesh.vertices.get ⟨i, by omega⟩)
      (mesh.vertices.get ⟨i + 1, by omega⟩)
      (mesh.vertices.get ⟨i + 2, by omega⟩)
    match writePoint initialized pt link_nb b with
    | .error e => .error e
    | .ok b1 => vertexLoop initialized Transform mesh link_nb n (i + 3) (by omega) b1

/-- The whole vertex loop over one mesh. -/
def meshLoop {α : Type} [Add α] [Mul α] (initialized : Bool) (Transform : Affine3d α)
    (mesh : Mesh α) (link_nb : Nat) (b : Buf α) : Except Fault (Buf α) :=
  vertexLoop initialized Transform mesh link_nb mesh.vertex_count 0 (by omega) b

/-- Lines 142 to 182: the loop over the collision shapes of a link; a shape that is
not a mesh is passed over. -/
def shapeLoop {α : Type} [Add α] [Mul α] (initialized : Bool) (Transform : Affine3d α)
    (link_nb : Nat) : List (Shape α) → Buf α → Except Fault (Buf α)
  | [], b => .ok b
  | shape :: rest, b =>
    if shape.type ≠ ShapeType.MESH then
      shapeLoop initialized Transform link_nb rest b
    else
      match shape.asMesh with
      | none => shapeLoop initialized Transform link_nb rest b
      | some mesh =>
        match meshLoop initialized Transform mesh link_nb b with
        | .error e => .error e
        | .ok b1 => shapeLoop initialized Transform link_nb rest b1

/-- Lines 134 to 213: the body of the loop over the store for one entry. -/
def linkBody {α : Type} [Add α] [Mul α] (initialized use_visual_mesh : Bool)
    (robot_state : RobotState α) (link_p : linkMap α) (link_nb : Nat) (b : Buf α) :
    Except Fault (Buf α) :=
  let Transform := robot_state.getCollisionBodyTransform link_p.1 0
  if use_visual_mesh = false then
    shapeLoop initialized Transform link_nb link_p.1.getShapes b
  else
    match link_p.2 with
    | none => .error .nullMesh
    | some mesh => meshLoop initialized Transform mesh link_nb b

/-- Lines 125 to 216: the loop `for (auto& it : meshes)`, with `link_nb++` after
every entry. -/
def linkLoop {α : Type} [Add α] [Mul α] (initialized use_visual_mesh : Bool)
    (robot_state : RobotState α) : meshesMap α → Nat → Buf α → Except Fault (Buf α)
  | [], _, b => .ok b
  | it :: rest, link_nb, b =>
    match linkBody initialized use_visual_mesh robot_state it.2 link_nb b with
    | .error e => .error e
    | .ok b1 => linkLoop initialized use_visual_mesh robot_state rest (link_nb + 1) b1

/-! ## The publish loop (lines 103 to 252) -/

/-- Variables of `main` that live across iterations of the `while` loop. -/
structure LoopState (α : Type) where
  cloud : PointCloud α
  link_info_channel : ChannelFloat32
  initialized : Bool
deriving DecidableEq

/-- State on entry to the loop (lines 88 to 100): an empty cloud, the channel named
`intensity` with no value, `initialized = false`. -/
def LoopState.init {α : Type} : LoopState α :=
  ⟨⟨"", 0, [], []⟩, ⟨"intensity", []⟩, false⟩

/-- Lines 218 to 225: `channels.push_back` on the first pass, `channels[0] = ...`
afterwards. -/
def attachChannel (initialized : Bool) (channels : List ChannelFloat32)
    (link_info_channel : ChannelFloat32) : Except Fault (List ChannelFloat32) :=
  if !initialized then
    .ok (channels ++ [link_info_channel])
  else
    match channels with
    | [] => .error .noChannel
    | _ :: rest => .ok (link_info_channel :: rest)

/-- Lines 238 to 245: sleep for the rest of the period, or report the overrun. -/
def pace {α : Type} (sleep_time elapsed : Int) : Event α :=
  if elapsed < sleep_time then
    .sleep (sleep_time - elapsed)
  else
    .infoThrottle 1 "Loop is slower then expected period"

/-- Lines 111 to 245: the branch taken when a robot state arrived. `elapsed` is the
duration the clock measures at line 235. -/
def runningCycle {α : Type} [Add α] [Mul α] (use_visual_mesh : Bool) (meshes : meshesMap α)
    (getRootLinkName : String) (sleep_time : Int) (s : LoopState α)
    (robot_state : RobotState α) (stamp : Nat) (elapsed : Int) :
    List (Event α) × Except Fault (LoopState α) :=
  match linkLoop s.initialized use_visual_mesh robot_state meshes 0
      ⟨s.cloud.points, s.link_info_channel.values, 0⟩ with
  | .error e => ([], .error e)
  | .ok b =>
    let link_info_channel : ChannelFloat32 := ⟨s.link_info_channel.name, b.values⟩
    match attachChannel s.initialized s.cloud.channels link_info_channel with
    | .error e => ([], .error e)
    | .ok channels =>
      let cloud : PointCloud α := ⟨getRootLinkName, stamp, b.points, channels⟩
      ([.publish cloud, pace sleep_time elapsed], .ok ⟨cloud, link_info_channel, true⟩)

/-- What one iteration of the `while` loop receives from outside: either
`waitForCurrentState` timed out, or a state with its time stamp arrived and
the iteration took `elapsed` nanoseconds. -/
inductive CycleInput (α : Type) where
  | timeout
  | fresh (robot_state : RobotState α) (stamp : Nat) (elapsed : Int)

/-- Lines 105 to 251: one iteration of the `while` loop. -/
def cycle {α : Type} [Add α] [Mul α] (use_visual_mesh : Bool) (meshes : meshesMap α)
    (getRootLinkName : String) (sleep_time : Int) (s : LoopState α) :
    CycleInput α → List (Event α) × Except Fault (LoopState α)
  | .timeout => ([.warn "Waiting for complete state !"], .ok s)
  | .fresh robot_state stamp elapsed =>
    runningCycle use_visual_mesh meshes getRootLinkName sleep_time s robot_state stamp elapsed

/-- Lines 103 to 252: the `while (ros::ok())` loop, one input per iteration; the end
of the list is the moment `ros::ok()` turns false. -/
def runLoop {α : Type} [Add α] [Mul α] (use_visual_mesh : Bool) (meshes : meshesMap α)
    (getRootLinkName : String) (sleep_time : Int) :
    List (CycleInput α) → LoopState α → List (Event α) × Except Fault (LoopState α)
  | [], s => ([], .ok s)
  | inp :: rest, s =>
    match cycle use_visual_mesh meshes getRootLinkName sleep_time s inp with
    | (evs, .error e) => (evs, .error e)
    | (evs, .ok s1) =>
      let r := runLoop use_visual_mesh meshes getRootLinkName sleep_time rest s1
      (evs ++ r.1, r.2)

/-! ## Start-up (lines 27 to 102) -/

/-- The four parameters `main` looks up; `none` when the parameter is not set. -/
structure Params where
  robot_description : Option String
  joint_states : Option String
  publish_frequency : Option Int
  use_visual_mesh : Option Bool

/-- What `main` obtains from the robot model and the mesh loader. -/
structure World (α : Type) where
  getLinkModelsWithCollisionGeometry : List (LinkModel α)
  createMeshFromResource : String → Option (Mesh α)
  getRootLinkName : String

/-- Lines 76 to 85: the loop filling the store, a link with an empty mesh file name
is not stored. -/
def loadMeshes {α : Type} (createMeshFromResource : String → Option (Mesh α)) :
    List (LinkModel α) → meshesMap α → meshesMap α
  | [], meshes => meshes
  | link :: rest, meshes =>
    let filename := link.getVisualMeshFilename
    if filename ≠ "" then
      loadMeshes createMeshFromResource rest
        (meshesMap.assign link.getName (link, createMeshFromResource filename) meshes)
    else
      loadMeshes createMeshFromResource rest meshes

/-- The constructor `ros::Duration(double)` of `rostime` (`fromSec`), with the
result in nanoseconds: the whole seconds are the floor of the argument and the
rest is rounded to the nearest nanosecond. -/
def Duration.fromSec (d : ℚ) : Int :=
  let sec : Int := Int.floor d
  let nsec : Int := Int.floor ((d - (sec : ℚ)) * 1000000000 + 1 / 2)
  sec * 1000000000 + nsec

/-- Line 96: `ros::Duration sleep_time(1./publish_frequency)`; for a zero frequency
the quotient is not a finite duration. -/
def sleepTime (publish_frequency : Int) : Except Fault Int :=
  if publish_frequency = 0 then .error .badDuration
  else .ok (Duration.fromSec (1 / (publish_frequency : ℚ)))

/-- Result of running `main`: the trace, and the exit status or the fault that
ended the process. -/
structure Exit (α : Type) where
  events : List (Event α)
  status : Except Fault Int

/-- Lines 54 to 58: the value of `publish_frequency` after the lookup, 50 when the
parameter is not set. -/
def publishFrequency (params : Params) : Int :=
  params.publish_frequency.getD 50

/-- Lines 60 to 64: the value of `use_visual_mesh` after the lookup, `false` when the
parameter is not set. -/
def useVisualMesh (params : Params) : Bool :=
  params.use_visual_mesh.getD false

/-- Lines 48 to 85: the messages logged between the check of `robot_description`
and the construction of the loop variables. -/
def startupLog {α : Type} (params : Params) (world : World α) : List (Event α) :=
  (match params.joint_states with
    | none => [.warn "joint_states_topic will be set to default : joint_states"]
    | some _ => []) ++
  (match params.publish_frequency with
    | none => [.warn "publish_frequency will be set to 50Hz"]
    | some _ => []) ++
  (match params.use_visual_mesh with
    | none => [.info "Using collision mesh"]
    | some _ => []) ++
  world.getLinkModelsWithCollisionGeometry.map
    (fun link => .info ("- " ++ link.getVisualMeshFilename))

/-- Lines 69 to 85: the store `meshes` as it stands when the loop starts. -/
def storeOf {α : Type} (world : World α) : meshesMap α :=
  loadMeshes world.createMeshFromResource world.getLinkModelsWithCollisionGeometry []

/-- The function `main`. -/
def main {α : Type} [Add α] [Mul α] (params : Params) (world : World α)
    (inputs : List (CycleInput α)) : Exit α :=
  let loading : List (Event α) := [.info "Loading robot from the parameter server"]
  match params.robot_description with
  | none => ⟨loading ++ [.error "robot_description not found"], .ok 0⟩
  | some _ =>
    let startup := loading ++ startupLog params world
    match sleepTime (publishFrequency params) with
    | .error e => ⟨startup, .error e⟩
    | .ok sleep_time =>
      let r := runLoop (useVisualMesh params) (storeOf world) world.getRootLinkName sleep_time
        inputs LoopState.init
      match r.2 with
      | .error e => ⟨startup ++ [.info "Starting"] ++ r.1, .error e⟩
      | .ok _ => ⟨startup ++ [.info "Starting"] ++ r.1, .ok 0⟩

/-- The clouds published in a trace, in order. -/
def frames {α : Type} : List (Event α) → List (PointCloud α)
  | [] => []
  | .publish cloud :: rest => cloud :: frames rest
  | _ :: rest => frames rest

/-! ## Specification functions

Closed forms the theorems compare the loops with. -/

/-- A vector as a point: the three assignments of lines 165 to 167. -/
def toPoint32 {α : Type} (v : Vector3d α) : Point32 α :=
  ⟨v.x, v.y, v.z⟩

/-- Consecutive groups of three coordinates of a flat array. -/
def triples {α : Type} : List α → List (Vector3d α)
  | x :: y :: z :: rest => ⟨x, y, z⟩ :: triples rest
  | _ => []

/-- The vertices of a mesh, in array order. -/
def Mesh.vertexList {α : Type} (mesh : Mesh α) : List (Vector3d α) :=
  triples mesh.vertices

/-- The meshes a store entry contributes in the given geometry mode: the mesh-type
collision shapes of the link, or the mesh loaded from the visual mesh file. -/
def linkMeshes {α : Type} (use_visual_mesh : Bool) (link_p : linkMap α) : List (Mesh α) :=
  if use_visual_mesh = false then link_p.1.getShapes.filterMap Shape.asMesh
  else link_p.2.toList

/-- The vertices a store entry contributes, in the order the loops visit them. -/
def linkVertices {α : Type} (use_visual_mesh : Bool) (link_p : linkMap α) :
    List (Vector3d α) :=
  (linkMeshes use_visual_mesh link_p).flatMap Mesh.vertexList

/-- The (point, tag) pairs written for one store entry numbered `link_nb`. -/
def linkWrites {α : Type} [Add α] [Mul α] (use_visual_mesh : Bool)
    (robot_state : RobotState α) (link_p : linkMap α) (link_nb : Nat) :
    List (Point32 α × Nat) :=
  (linkVertices use_visual_mesh link_p).map
    (fun v => (toPoint32 ((robot_state.getCollisionBodyTransform link_p.1 0).mul v), link_nb))

/-- The (point, tag) pairs written for a whole store whose first entry is numbered
`link_nb`. -/
def frameWrites {α : Type} [Add α] [Mul α] (use_visual_mesh : Bool)
    (robot_state : RobotState α) : meshesMap α → Nat → List (Point32 α × Nat)
  | [], _ => []
  | it :: rest, link_nb =>
    linkWrites use_visual_mesh robot_state it.2 link_nb ++
      frameWrites use_visual_mesh robot_state rest (link_nb + 1)

/-- A sequence of calls of `writePoint`. -/
def writeAll {α : Type} (initialized : Bool) :
    List (Point32 α × Nat) → Buf α → Except Fault (Buf α)
  | [], b => .ok b
  | w :: ws, b =>
    match writePoint initialized w.1 w.2 b with
    | .error e => .error e
    | .ok b1 => writeAll initialized ws b1

/-- In visual mode every stored mesh pointer is non-null. -/
def meshesLoaded {α : Type} (use_visual_mesh : Bool) (meshes : meshesMap α) : Prop :=
  use_visual_mesh = true → ∀ it ∈ meshes, it.2.2 ≠ none

/-- The points of the frame for one robot state: for every store entry in store
order and every vertex it contributes, the vertex moved by the entry's transform. -/
def framePoints {α : Type} [Add α] [Mul α] (use_visual_mesh : Bool)
    (robot_state : RobotState α) (meshes : meshesMap α) : List (Point32 α) :=
  meshes.flatMap (fun it => (linkVertices use_visual_mesh it.2).map
    (fun v => toPoint32 ((robot_state.getCollisionBodyTransform it.2.1 0).mul v)))

/-- The tags of a frame: the entry at position `k` of the store contributes the tag
`k` once per vertex. -/
def frameTags {α : Type} (use_visual_mesh : Bool) (meshes : meshesMap α) : List Nat :=
  meshes.enum.flatMap (fun p => List.replicate (linkVertices use_visual_mesh p.2.2).length p.1)

/-- The frame a first pass from an empty buffer builds for a robot state. -/
def freshFrame {α : Type} [Add α] [Mul α] (use_visual_mesh : Bool) (meshes : meshesMap α)
    (getRootLinkName : String) (robot_state : RobotState α) (stamp : Nat) : PointCloud α :=
  ⟨getRootLinkName, stamp, framePoints use_visual_mesh robot_state meshes,
    [⟨"intensity", frameTags use_visual_mesh meshes⟩]⟩

/-- Invariant of the loop state: before the first frame the buffers are empty, after
it they have one slot per vertex of the store and the cloud has one channel. -/
def Inv {α : Type} (use_visual_mesh : Bool) (meshes : meshesMap α) (s : LoopState α) : Prop :=
  s.link_info_channel.name = "intensity" ∧
    if s.initialized = true then
      s.cloud.points.length = (frameTags use_visual_mesh meshes).length ∧
        s.link_info_channel.values.length = (frameTags use_visual_mesh meshes).length ∧
        s.cloud.channels.length = 1
    else
      s.cloud.points = [] ∧ s.link_info_channel.values = [] ∧ s.cloud.channels = []

/-- The (link, vertex) pairs of a frame, in the order of the frame's points. -/
def frameVertices {α : Type} (use_visual_mesh : Bool) (meshes : meshesMap α) :
    List (LinkModel α × Vector3d α) :=
  meshes.flatMap (fun it => (linkVertices use_visual_mesh it.2).map (fun v => (it.2.1, v)))

/-- The point a robot state assigns to a (link, vertex) pair. -/
def placeVertex {α : Type} [Add α] [Mul α] (robot_state : RobotState α)
    (p : LinkModel α × Vector3d α) : Point32 α :=
  toPoint32 ((robot_state.getCollisionBodyTransform p.1 0).mul p.2)

/-- The entries of a store are in strictly ascending order of their keys. -/
def keysAscending {α : Type} (meshes : meshesMap α) : Prop :=
  List.Pairwise (fun a b => a.1 < b.1) meshes

/-- The model without the links whose mesh file name is empty. -/
def withoutEmptyPaths {α : Type} (world : World α) : World α :=
  ⟨world.getLinkModelsWithCollisionGeometry.filter (fun link => link.getVisualMeshFilename ≠ ""),
    world.createMeshFromResource, world.getRootLinkName⟩

/-- The number of points a store entry contributes to a frame; undefined in visual
mode when the mesh pointer of the entry is null. -/
def segmentCount {α : Type} (use_visual_mesh : Bool) (link_p : linkMap α) : Option Nat :=
  if use_visual_mesh = false then some (linkVertices false link_p).length
  else link_p.2.map (fun mesh => mesh.vertexList.length)

/-! ## Concrete inputs -/

/-- A mesh of one vertex, `(1, 0, 0)`. -/
def unitMesh : Mesh ℚ := ⟨1, [1, 0, 0], rfl⟩

/-- A link named `link` whose collision shape and visual mesh are `unitMesh`. -/
def unitLink : LinkModel ℚ := ⟨"link", "link.stl", [.mesh unitMesh]⟩

/-- A robot of the single link `unitLink`. -/
def unitWorld : World ℚ := ⟨[unitLink], fun _ => some unitMesh, "base"⟩

/-- A robot state placing every link at translation `(0, 0, 5)` with the identity
rotation. -/
def liftBy5 : RobotState ℚ := ⟨fun _ _ => ⟨⟨1, 0, 0, 0, 1, 0, 0, 0, 1⟩, ⟨0, 0, 5⟩⟩⟩

/-- The frame expected for `unitWorld` in the state `liftBy5`. -/
def unitFrame : PointCloud ℚ := ⟨"base", 0, [⟨1, 0, 5⟩], [⟨"intensity", [0]⟩]⟩

/-- A triangle: the vertices `(1,0,0)`, `(0,1,0)`, `(0,0,1)`. -/
def triangle : Mesh ℚ := ⟨3, [1, 0, 0, 0, 1, 0, 0, 0, 1], rfl⟩

/-- Segment `A`: a mesh file and a triangle as collision shape. -/
def segmentA : LinkModel ℚ := ⟨"A", "a.stl", [.mesh triangle]⟩

/-- Segment `B`: no mesh file, a box as collision shape. -/
def segmentB : LinkModel ℚ := ⟨"B", "", [.box]⟩

/-- A robot of the two segments `A` and `B`. -/
def twoSegments : World ℚ := ⟨[segmentA, segmentB], fun _ => some triangle, "base"⟩

/-- A robot state placing every link at translation `(1, 0, 0)` with the identity
rotation. -/
def shiftBy1 : RobotState ℚ := ⟨fun _ _ => ⟨⟨1, 0, 0, 0, 1, 0, 0, 0, 1⟩, ⟨1, 0, 0⟩⟩⟩

/-- The frame of `twoSegments` in the state `liftBy5`, stamped 1. -/
def liftedTriangle : PointCloud ℚ :=
  ⟨"base", 1, [⟨1, 0, 5⟩, ⟨0, 1, 5⟩, ⟨0, 0, 6⟩], [⟨"intensity", [0, 0, 0]⟩]⟩

/-- The frame of `twoSegments` in the state `shiftBy1`, stamped 2. -/
def shiftedTriangle : PointCloud ℚ :=
  ⟨"base", 2, [⟨2, 0, 0⟩, ⟨1, 1, 0⟩, ⟨1, 0, 1⟩], [⟨"intensity", [0, 0, 0]⟩]⟩

/-- A link with a mesh file whose only collision shape is a box. -/
def boxLink : LinkModel ℚ := ⟨"a_box", "a.stl", [.box]⟩

/-- A link with a mesh file whose only collision shape is the mesh `unitMesh`. -/
def meshLink : LinkModel ℚ := ⟨"b_mesh", "b.stl", [.mesh unitMesh]⟩

/-- A robot of the two links `boxLink` and `meshLink`. -/
def boxThenMesh : World ℚ := ⟨[boxLink, meshLink], fun _ => some unitMesh, "base"⟩

/-- A mesh of one vertex, `(0, 1, 0)`. -/
def otherMesh : Mesh ℚ := ⟨1, [0, 1, 0], rfl⟩

/-- A link named `z_link` with the mesh `unitMesh`. -/
def linkZ : LinkModel ℚ := ⟨"z_link", "z.stl", [.mesh unitMesh]⟩

/-- A link named `a_link` with the mesh `otherMesh`. -/
def linkA : LinkModel ℚ := ⟨"a_link", "a.stl", [.mesh otherMesh]⟩

/-- A robot whose model lists `z_link` before `a_link`. -/
def zBeforeA : World ℚ :=
  ⟨[linkZ, linkA], fun file => if file = "a.stl" then some otherMesh else some unitMesh, "base"⟩

/-- A link with a mesh file and two collision shapes: a box and the mesh `unitMesh`. -/
def mixedLink : LinkModel ℚ := ⟨"mixed", "m.stl", [.box, .mesh unitMesh]⟩

/-- A robot of the single link `mixedLink`. -/
def mixedWorld : World ℚ := ⟨[mixedLink], fun _ => some unitMesh, "base"⟩

/-! ## The loops as sequences of writes -/

theorem writeAll_append {α : Type} (initialized : Bool) (ws1 ws2 : List (Point32 α × Nat))
    (b : Buf α) :
    writeAll initialized (ws1 ++ ws2) b =
      match writeAll initialized ws1 b with
      | .error e => .error e
      | .ok b1 => writeAll initialized ws2 b1 := by
  induction ws1 generalizing b with
  | nil => simp [writeAll]
  | cons w ws ih =>
    simp only [List.cons_append, writeAll]
    cases writePoint initialized w.1 w.2 b with
    | error e => rfl
    | ok b1 => exact ih b1

theorem vertexLoop_eq {α : Type} [Add α] [Mul α] (initialized : Bool) (T : Affine3d α)
    (mesh : Mesh α) (link_nb : Nat) (n i : Nat) (h : i + 3 * n = 3 * mesh.vertex_count)
    (b : Buf α) :
    vertexLoop initialized T mesh link_nb n i h b =
      writeAll initialized
        ((triples (mesh.vertices.drop i)).map (fun v => (toPoint32 (T.mul v), link_nb))) b := by
  have hs := mesh.size_eq
  induction n generalizing i b with
  | zero =>
    have : mesh.vertices.drop i = [] := List.drop_eq_nil_of_le (by omega)
    simp [vertexLoop, this, triples, writeAll]
  | succ n ih =>
    have h0 : i < mesh.vertices.length := by omega
    have h1 : i + 1 < mesh.vertices.length := by omega
    have h2 : i + 2 < mesh.vertices.length := by omega
    have hd : mesh.vertices.drop i =
        mesh.vertices[i] :: mesh.vertices[i + 1] :: mesh.vertices[i + 2] ::
          mesh.vertices.drop (i + 3) := by
      rw [List.drop_eq_getElem_cons h0, List.drop_eq_getElem_cons h1,
        List.drop_eq_getElem_cons h2]
    rw [hd]
    simp only [vertexLoop, triples, List.map_cons, writeAll, List.get_eq_getElem]
    have ht : transformVertex T mesh.vertices[i] mesh.vertices[i + 1] mesh.vertices[i + 2] =
        toPoint32 (T.mul ⟨mesh.vertices[i], mesh.vertices[i + 1], mesh.vertices[i + 2]⟩) := rfl
    rw [ht]
    cases writePoint initialized
        (toPoint32 (T.mul ⟨mesh.vertices[i], mesh.vertices[i + 1], mesh.vertices[i + 2]⟩))
        link_nb b with
    | error e => rfl
    | ok b1 => exact ih (i + 3) (by omega) b1

theorem meshLoop_eq {α : Type} [Add α] [Mul α] (initialized : Bool) (T : Affine3d α)
    (mesh : Mesh α) (link_nb : Nat) (b : Buf α) :
    meshLoop initialized T mesh link_nb b =
      writeAll initialized
        (mesh.vertexList.map (fun v => (toPoint32 (T.mul v), link_nb))) b := by
  unfold meshLoop Mesh.vertexList
  rw [vertexLoop_eq]
  simp

theorem shapeLoop_eq {α : Type} [Add α] [Mul α] (initialized : Bool) (T : Affine3d α)
    (link_nb : Nat) (shapes : List (Shape α)) (b : Buf α) :
    shapeLoop initialized T link_nb shapes b =
      writeAll initialized
        (((shapes.filterMap Shape.asMesh).flatMap Mesh.vertexList).map
          (fun v => (toPoint32 (T.mul v), link_nb))) b := by
  induction shapes generalizing b with
  | nil => simp [shapeLoop, writeAll]
  | cons shape rest ih =>
    cases shape <;>
      simp only [shapeLoop, Shape.type, Shape.asMesh, ne_eq, not_true_eq_false, not_false_eq_true,
        if_true, if_false, List.filterMap_cons, reduceCtorEq, ih]
    rw [List.flatMap_cons, List.map_append, writeAll_append, meshLoop_eq]

theorem linkBody_eq {α : Type} [Add α] [Mul α] (initialized use_visual_mesh : Bool)
    (robot_state : RobotState α) (link_p : linkMap α) (link_nb : Nat) (b : Buf α)
    (h : use_visual_mesh = true → link_p.2 ≠ none) :
    linkBody initialized use_visual_mesh robot_state link_p link_nb b =
      writeAll initialized (linkWrites use_visual_mesh robot_state link_p link_nb) b := by
  cases use_visual_mesh with
  | false =>
    simp [linkBody, linkWrites, linkVertices, linkMeshes, shapeLoop_eq]
  | true =>
    cases hm : link_p.2 with
    | none => exact absurd hm (h rfl)
    | some mesh =>
      simp [linkBody, linkWrites, linkVertices, linkMeshes, hm, meshLoop_eq]

theorem linkBody_loaded {α : Type} [Add α] [Mul α] (initialized use_visual_mesh : Bool)
    (robot_state : RobotState α) (link_p : linkMap α) (link_nb : Nat) (b b1 : Buf α)
    (h : linkBody initialized use_visual_mesh robot_state link_p link_nb b = .ok b1) :
    use_visual_mesh = true → link_p.2 ≠ none := by
  intro hv hm
  subst hv
  simp [linkBody, hm] at h

theorem linkLoop_eq {α : Type} [Add α] [Mul α] (initialized use_visual_mesh : Bool)
    (robot_state : RobotState α) (meshes : meshesMap α) (link_nb : Nat) (b : Buf α)
    (h : meshesLoaded use_visual_mesh meshes) :
    linkLoop initialized use_visual_mesh robot_state meshes link_nb b =
      writeAll initialized (frameWrites use_visual_mesh robot_state meshes link_nb) b := by
  induction meshes generalizing link_nb b with
  | nil => simp [linkLoop, frameWrites, writeAll]
  | cons it rest ih =>
    have hit : use_visual_mesh = true → it.2.2 ≠ none := fun hv => h hv it (List.mem_cons_self _ _)
    have hrest : meshesLoaded use_visual_mesh rest :=
      fun hv x hx => h hv x (List.mem_cons_of_mem _ hx)
    simp only [linkLoop, frameWrites, writeAll_append, linkBody_eq _ _ _ _ _ _ hit]
    cases writeAll initialized (linkWrites use_visual_mesh robot_state it.2 link_nb) b with
    | error e => rfl
    | ok b1 => exact ih (link_nb + 1) b1 hrest

theorem linkLoop_loaded {α : Type} [Add α] [Mul α] (initialized use_visual_mesh : Bool)
    (robot_state : RobotState α) (meshes : meshesMap α) (link_nb : Nat) (b b1 : Buf α)
    (h : linkLoop initialized use_visual_mesh robot_state meshes link_nb b = .ok b1) :
    meshesLoaded use_visual_mesh meshes := by
  induction meshes generalizing link_nb b with
  | nil => intro _ it hit; simp at hit
  | cons it rest ih =>
    simp only [linkLoop] at h
    cases hb : linkBody initialized use_visual_mesh robot_state it.2 link_nb b with
    | error e => simp [hb] at h
    | ok b2 =>
      simp only [hb] at h
      intro hv x hx
      rcases List.mem_cons.mp hx with rfl | hx
      · exact linkBody_loaded _ _ _ _ _ _ _ hb hv
      · exact ih _ _ h hv x hx

/-! ## The effect of a sequence of writes -/

theorem set_splice {β : Type} (l : List β) (j k : Nat) (x : β) (ys : List β)
    (h : j < l.length) :
    (l.set j x).take (j + 1) ++ ys ++ (l.set j x).drop (j + (k + 1)) =
      l.take j ++ x :: ys ++ l.drop (j + (k + 1)) := by
  have hd : (l.set j x).drop (j + (k + 1)) = l.drop (j + (k + 1)) :=
    List.drop_set_of_lt _ _ (by omega)
  have ht : (l.set j x).take (j + 1) = l.take j ++ [x] := by
    rw [List.take_succ]
    have : List.take j (l.set j x) = List.take j l := by
      apply List.ext_getElem?
      intro n
      simp only [List.getElem?_take]
      split
      · rw [List.getElem?_set_ne (by omega)]
      · rfl
    simp [List.getElem?_set_self, h, this]
  rw [hd, ht]
  simp

theorem writeAll_false {α : Type} (ws : List (Point32 α × Nat)) (b : Buf α) :
    writeAll false ws b =
      .ok ⟨b.points ++ ws.map Prod.fst, b.values ++ ws.map Prod.snd, b.j + ws.length⟩ := by
  induction ws generalizing b with
  | nil => simp [writeAll]
  | cons w ws ih =>
    simp only [writeAll, writePoint, Bool.not_false, if_true, ih]
    simp [Nat.add_assoc, Nat.add_comm 1]

theorem writeAll_true {α : Type} (ws : List (Point32 α × Nat)) (b : Buf α)
    (hp : b.j + ws.length ≤ b.points.length) (hv : b.j + ws.length ≤ b.values.length) :
    writeAll true ws b =
      .ok ⟨b.points.take b.j ++ ws.map Prod.fst ++ b.points.drop (b.j + ws.length),
        b.values.take b.j ++ ws.map Prod.snd ++ b.values.drop (b.j + ws.length),
        b.j + ws.length⟩ := by
  induction ws generalizing b with
  | nil => simp [writeAll]
  | cons w ws ih =>
    simp only [List.length_cons] at hp hv
    have h1 : b.j < b.points.length := by omega
    have h2 : b.j < b.values.length := by omega
    simp only [writeAll, writePoint, Bool.not_true, h1, h2, and_self, if_true]
    simp only [Bool.false_eq_true, if_false]
    rw [ih _ (by simp; omega) (by simp; omega)]
    simp only [List.length_cons, List.map_cons]
    have e1 : b.j + 1 + ws.length = b.j + (ws.length + 1) := by omega
    rw [e1]
    have e2 := set_splice b.points b.j ws.length w.1 (ws.map Prod.fst) h1
    have e3 := set_splice b.values b.j ws.length w.2 (ws.map Prod.snd) h2
    simp only [e2, e3]


theorem writeAll_true_inv {α : Type} (ws : List (Point32 α × Nat)) (b b1 : Buf α)
    (h : writeAll true ws b = .ok b1) :
    b1.points.length = b.points.length ∧ b1.values.length = b.values.length ∧
      b1.j = b.j + ws.length ∧
      (ws ≠ [] → b.j + ws.length ≤ b.points.length ∧ b.j + ws.length ≤ b.values.length) := by
  induction ws generalizing b with
  | nil =>
    simp only [writeAll, Except.ok.injEq] at h
    subst h
    simp
  | cons w ws ih =>
    simp only [writeAll, writePoint, Bool.not_true, Bool.false_eq_true, if_false] at h
    by_cases hb : b.j < b.points.length ∧ b.j < b.values.length
    · simp only [hb, and_self, if_true] at h
      have := ih _ h
      simp only [List.length_set] at this
      obtain ⟨p1, p2, p3, p4⟩ := this
      refine ⟨p1, p2, by simp [p3]; omega, fun _ => ?_⟩
      simp only [List.length_cons]
      by_cases hws : ws = []
      · subst hws
        simp
        omega
      · have := p4 hws
        omega
    · simp [hb] at h

theorem writeAll_parity {α : Type} (initialized : Bool) (ws : List (Point32 α × Nat))
    (b b1 : Buf α) (h : writeAll initialized ws b = .ok b1)
    (hb : b.points.length = b.values.length) : b1.points.length = b1.values.length := by
  cases initialized with
  | false =>
    rw [writeAll_false] at h
    simp only [Except.ok.injEq] at h
    subst h
    simp [hb]
  | true =>
    obtain ⟨p1, p2, _, _⟩ := writeAll_true_inv ws b b1 h
    omega

/-! ## The frame of one cycle -/

theorem frameWrites_fst {α : Type} [Add α] [Mul α] (use_visual_mesh : Bool)
    (robot_state : RobotState α) (meshes : meshesMap α) (link_nb : Nat) :
    (frameWrites use_visual_mesh robot_state meshes link_nb).map Prod.fst =
      framePoints use_visual_mesh robot_state meshes := by
  induction meshes generalizing link_nb with
  | nil => simp [frameWrites, framePoints]
  | cons it rest ih =>
    simp only [frameWrites, List.map_append, ih, framePoints, List.flatMap_cons, linkWrites,
      List.map_map]
    rfl

theorem frameWrites_snd {α : Type} [Add α] [Mul α] (use_visual_mesh : Bool)
    (robot_state : RobotState α) (meshes : meshesMap α) (link_nb : Nat) :
    (frameWrites use_visual_mesh robot_state meshes link_nb).map Prod.snd =
      (meshes.enumFrom link_nb).flatMap
        (fun p => List.replicate (linkVertices use_visual_mesh p.2.2).length p.1) := by
  induction meshes generalizing link_nb with
  | nil => simp [frameWrites]
  | cons it rest ih =>
    simp only [frameWrites, List.map_append, ih, List.enumFrom_cons, List.flatMap_cons, linkWrites,
      List.map_map]
    congr 1
    simp [List.eq_replicate_iff]

theorem frameWrites_tags {α : Type} [Add α] [Mul α] (use_visual_mesh : Bool)
    (robot_state : RobotState α) (meshes : meshesMap α) :
    (frameWrites use_visual_mesh robot_state meshes 0).map Prod.snd =
      frameTags use_visual_mesh meshes := by
  rw [frameWrites_snd]
  rfl

theorem frameWrites_length {α : Type} [Add α] [Mul α] (use_visual_mesh : Bool)
    (robot_state : RobotState α) (meshes : meshesMap α) :
    (frameWrites use_visual_mesh robot_state meshes 0).length =
      (frameTags use_visual_mesh meshes).length := by
  rw [← frameWrites_tags use_visual_mesh robot_state, List.length_map]

theorem linkLoop_fresh {α : Type} [Add α] [Mul α] (use_visual_mesh : Bool)
    (robot_state : RobotState α) (meshes : meshesMap α) (s : LoopState α)
    (hinv : Inv use_visual_mesh meshes s) (hl : meshesLoaded use_visual_mesh meshes) :
    linkLoop s.initialized use_visual_mesh robot_state meshes 0
        ⟨s.cloud.points, s.link_info_channel.values, 0⟩ =
      .ok ⟨framePoints use_visual_mesh robot_state meshes, frameTags use_visual_mesh meshes,
        (frameTags use_visual_mesh meshes).length⟩ := by
  rw [linkLoop_eq _ _ _ _ _ _ hl]
  have hlen := frameWrites_length use_visual_mesh robot_state meshes
  obtain ⟨_, h⟩ := hinv
  cases hi : s.initialized with
  | false =>
    simp only [hi, Bool.false_eq_true, if_false] at h
    obtain ⟨h1, h2, _⟩ := h
    rw [writeAll_false, h1, h2]
    simp [frameWrites_fst, frameWrites_tags, hlen]
  | true =>
    simp only [hi, if_true] at h
    obtain ⟨h1, h2, _⟩ := h
    rw [writeAll_true _ _ (by simp [hlen, h1]) (by simp [hlen, h2])]
    simp only [List.take_zero, List.nil_append, Nat.zero_add, hlen, frameWrites_fst,
      frameWrites_tags]
    rw [List.drop_of_length_le (by omega), List.drop_of_length_le (by omega)]
    simp

/-! ## The loop invariant -/

theorem Inv_init {α : Type} (use_visual_mesh : Bool) (meshes : meshesMap α) :
    Inv use_visual_mesh meshes (LoopState.init : LoopState α) := by
  simp [Inv, LoopState.init]

theorem runningCycle_fresh {α : Type} [Add α] [Mul α] (use_visual_mesh : Bool)
    (meshes : meshesMap α) (root : String) (sleep_time : Int) (s : LoopState α)
    (robot_state : RobotState α) (stamp : Nat) (elapsed : Int)
    (hinv : Inv use_visual_mesh meshes s) (hl : meshesLoaded use_visual_mesh meshes) :
    runningCycle use_visual_mesh meshes root sleep_time s robot_state stamp elapsed =
      ([.publish (freshFrame use_visual_mesh meshes root robot_state stamp),
          pace sleep_time elapsed],
        .ok ⟨freshFrame use_visual_mesh meshes root robot_state stamp,
          ⟨"intensity", frameTags use_visual_mesh meshes⟩, true⟩) := by
  unfold runningCycle
  rw [linkLoop_fresh use_visual_mesh robot_state meshes s hinv hl]
  obtain ⟨hn, h⟩ := hinv
  cases hi : s.initialized with
  | false =>
    simp only [hi, Bool.false_eq_true, if_false] at h
    simp [attachChannel, h.2.2, hn, freshFrame]
  | true =>
    simp only [hi, if_true] at h
    obtain ⟨c, hc⟩ := List.length_eq_one.mp h.2.2
    simp [attachChannel, hc, hn, freshFrame]

theorem runningCycle_loaded {α : Type} [Add α] [Mul α] (use_visual_mesh : Bool)
    (meshes : meshesMap α) (root : String) (sleep_time : Int) (s s1 : LoopState α)
    (robot_state : RobotState α) (stamp : Nat) (elapsed : Int) (evs : List (Event α))
    (h : runningCycle use_visual_mesh meshes root sleep_time s robot_state stamp elapsed =
      (evs, .ok s1)) :
    meshesLoaded use_visual_mesh meshes := by
  unfold runningCycle at h
  cases hb : linkLoop s.initialized use_visual_mesh robot_state meshes 0
      ⟨s.cloud.points, s.link_info_channel.values, 0⟩ with
  | error e => simp [hb] at h
  | ok b => exact linkLoop_loaded _ _ _ _ _ _ _ hb

theorem runningCycle_error {α : Type} [Add α] [Mul α] (use_visual_mesh : Bool)
    (meshes : meshesMap α) (root : String) (sleep_time : Int) (s : LoopState α)
    (robot_state : RobotState α) (stamp : Nat) (elapsed : Int) (evs : List (Event α))
    (e : Fault)
    (h : runningCycle use_visual_mesh meshes root sleep_time s robot_state stamp elapsed =
      (evs, .error e)) :
    evs = [] := by
  unfold runningCycle at h
  cases hb : linkLoop s.initialized use_visual_mesh robot_state meshes 0
      ⟨s.cloud.points, s.link_info_channel.values, 0⟩ with
  | error e1 =>
    simp only [hb, Prod.mk.injEq] at h
    exact h.1.symm
  | ok b =>
    simp only [hb] at h
    cases ha : attachChannel s.initialized s.cloud.channels
        ⟨s.link_info_channel.name, b.values⟩ with
    | error e1 =>
      simp only [ha, Prod.mk.injEq] at h
      exact h.1.symm
    | ok channels => simp [ha] at h

theorem Inv_fresh {α : Type} [Add α] [Mul α] (use_visual_mesh : Bool) (meshes : meshesMap α)
    (root : String) (robot_state : RobotState α) (stamp : Nat) :
    Inv use_visual_mesh meshes
      ⟨freshFrame use_visual_mesh meshes root robot_state stamp,
        ⟨"intensity", frameTags use_visual_mesh meshes⟩, true⟩ := by
  have h1 : (framePoints use_visual_mesh robot_state meshes).length =
      (frameTags use_visual_mesh meshes).length := by
    rw [← frameWrites_fst use_visual_mesh robot_state meshes 0, List.length_map,
      frameWrites_length]
  simp [Inv, freshFrame, h1]

theorem cycle_inv {α : Type} [Add α] [Mul α] (use_visual_mesh : Bool)
    (meshes : meshesMap α) (root : String) (sleep_time : Int) (s s1 : LoopState α)
    (inp : CycleInput α) (evs : List (Event α))
    (hinv : Inv use_visual_mesh meshes s)
    (h : cycle use_visual_mesh meshes root sleep_time s inp = (evs, .ok s1)) :
    Inv use_visual_mesh meshes s1 := by
  cases inp with
  | timeout =>
    simp only [cycle, Prod.mk.injEq, Except.ok.injEq] at h
    rw [← h.2]
    exact hinv
  | fresh robot_state stamp elapsed =>
    simp only [cycle] at h
    have hl := runningCycle_loaded _ _ _ _ _ _ _ _ _ _ h
    rw [runningCycle_fresh _ _ _ _ _ _ _ _ hinv hl] at h
    simp only [Prod.mk.injEq, Except.ok.injEq] at h
    rw [← h.2]
    exact Inv_fresh _ _ _ _ _

theorem runLoop_inv {α : Type} [Add α] [Mul α] (use_visual_mesh : Bool)
    (meshes : meshesMap α) (root : String) (sleep_time : Int) (inputs : List (CycleInput α))
    (s s1 : LoopState α) (evs : List (Event α))
    (hinv : Inv use_visual_mesh meshes s)
    (h : runLoop use_visual_mesh meshes root sleep_time inputs s = (evs, .ok s1)) :
    Inv use_visual_mesh meshes s1 := by
  induction inputs generalizing s evs with
  | nil =>
    simp only [runLoop, Prod.mk.injEq, Except.ok.injEq] at h
    rw [← h.2]
    exact hinv
  | cons inp rest ih =>
    simp only [runLoop] at h
    rcases hc : cycle use_visual_mesh meshes root sleep_time s inp with ⟨e1, r1⟩
    cases r1 with
    | error e => simp [hc] at h
    | ok s2 =>
      simp only [hc, Prod.mk.injEq] at h
      exact ih s2 _ (cycle_inv _ _ _ _ _ _ _ _ hinv hc) (Prod.ext rfl h.2)

theorem reachable_inv {α : Type} [Add α] [Mul α] (use_visual_mesh : Bool)
    (meshes : meshesMap α) (root : String) (sleep_time : Int) (pre : List (CycleInput α))
    (s : LoopState α) (evs : List (Event α))
    (h : runLoop use_visual_mesh meshes root sleep_time pre LoopState.init = (evs, .ok s)) :
    Inv use_visual_mesh meshes s :=
  runLoop_inv _ _ _ _ _ _ _ _ (Inv_init _ _) h

theorem frames_append {α : Type} (e1 e2 : List (Event α)) :
    frames (e1 ++ e2) = frames e1 ++ frames e2 := by
  induction e1 with
  | nil => rfl
  | cons e rest ih => cases e <;> simp [frames, ih]

theorem runLoop_frames {α : Type} [Add α] [Mul α] (use_visual_mesh : Bool)
    (meshes : meshesMap α) (root : String) (sleep_time : Int) (inputs : List (CycleInput α))
    (s : LoopState α) (hinv : Inv use_visual_mesh meshes s) (cloud : PointCloud α)
    (hc : cloud ∈ frames (runLoop use_visual_mesh meshes root sleep_time inputs s).1) :
    ∃ robot_state stamp elapsed, CycleInput.fresh robot_state stamp elapsed ∈ inputs ∧
      cloud = freshFrame use_visual_mesh meshes root robot_state stamp := by
  induction inputs generalizing s with
  | nil => simp [runLoop, frames] at hc
  | cons inp rest ih =>
    simp only [runLoop] at hc
    rcases hcy : cycle use_visual_mesh meshes root sleep_time s inp with ⟨e1, r1⟩
    have hhead : cloud ∈ frames e1 → ∃ robot_state stamp elapsed,
        CycleInput.fresh robot_state stamp elapsed ∈ inp :: rest ∧
        cloud = freshFrame use_visual_mesh meshes root robot_state stamp := by
      intro hm
      cases inp with
      | timeout =>
        simp only [cycle, Prod.mk.injEq] at hcy
        rw [← hcy.1] at hm
        simp [frames] at hm
      | fresh robot_state stamp elapsed =>
        simp only [cycle] at hcy
        cases r1 with
        | error e =>
          rw [runningCycle_error _ _ _ _ _ _ _ _ _ _ hcy] at hm
          simp [frames] at hm
        | ok s2 =>
          have hl := runningCycle_loaded _ _ _ _ _ _ _ _ _ _ hcy
          rw [runningCycle_fresh _ _ _ _ _ _ _ _ hinv hl] at hcy
          simp only [Prod.mk.injEq] at hcy
          rw [← hcy.1] at hm
          have : cloud = freshFrame use_visual_mesh meshes root robot_state stamp := by
            unfold pace at hm
            split at hm <;> simpa [frames] using hm
          exact ⟨robot_state, stamp, elapsed, List.mem_cons_self _ _, this⟩
    cases r1 with
    | error e =>
      simp only [hcy] at hc
      exact hhead hc
    | ok s2 =>
      simp only [hcy, frames_append, List.mem_append] at hc
      rcases hc with hc | hc
      · exact hhead hc
      · obtain ⟨st, stamp, el, hm, he⟩ := ih s2 (cycle_inv _ _ _ _ _ _ _ _ hinv hcy) hc
        exact ⟨st, stamp, el, List.mem_cons_of_mem _ hm, he⟩

/-! ## Frames published by `main` -/

theorem frames_startupLog {α : Type} (params : Params) (world : World α) :
    frames (startupLog params world) = [] := by
  have hmap : ∀ l : List (LinkModel α),
      frames (l.map (fun link => (.info ("- " ++ link.getVisualMeshFilename) : Event α))) = [] := by
    intro l
    induction l with
    | nil => rfl
    | cons a l ih => simpa [frames] using ih
  unfold startupLog
  rw [frames_append, frames_append, frames_append, hmap]
  cases params.joint_states <;> cases params.publish_frequency <;>
    cases params.use_visual_mesh <;> rfl

theorem main_frames {α : Type} [Add α] [Mul α] (params : Params) (world : World α)
    (inputs : List (CycleInput α)) (cloud : PointCloud α)
    (h : cloud ∈ frames (main params world inputs).events) :
    ∃ robot_state stamp elapsed, CycleInput.fresh robot_state stamp elapsed ∈ inputs ∧
      cloud = freshFrame (useVisualMesh params) (storeOf world) world.getRootLinkName
        robot_state stamp := by
  unfold main at h
  cases hd : params.robot_description with
  | none => simp [hd, frames] at h
  | some d =>
    simp only [hd] at h
    cases hs : sleepTime (publishFrequency params) with
    | error e => simp [hs, frames_append, frames_startupLog, frames] at h
    | ok sleep_time =>
      simp only [hs] at h
      have key : cloud ∈ frames (runLoop (useVisualMesh params) (storeOf world)
          world.getRootLinkName sleep_time inputs LoopState.init).1 := by
        revert h
        split <;> simp [frames_append, frames_startupLog, frames]
      exact runLoop_frames _ _ _ _ _ _ (Inv_init _ _) _ key

/-! ## Transform correctness and tag parity (C1, C2) -/

theorem runningCycle_frames {α : Type} [Add α] [Mul α] (use_visual_mesh : Bool)
    (meshes : meshesMap α) (root : String) (sleep_time : Int) (pre : List (CycleInput α))
    (s s1 : LoopState α) (evs0 evs : List (Event α))
    (robot_state : RobotState α) (stamp : Nat) (elapsed : Int)
    (hreach : runLoop use_visual_mesh meshes root sleep_time pre LoopState.init = (evs0, .ok s))
    (hrun : runningCycle use_visual_mesh meshes root sleep_time s robot_state stamp elapsed =
      (evs, .ok s1)) :
    evs = [.publish (freshFrame use_visual_mesh meshes root robot_state stamp),
        pace sleep_time elapsed] ∧
      s1 = ⟨freshFrame use_visual_mesh meshes root robot_state stamp,
        ⟨"intensity", frameTags use_visual_mesh meshes⟩, true⟩ := by
  have hinv := reachable_inv _ _ _ _ _ _ _ hreach
  have hl := runningCycle_loaded _ _ _ _ _ _ _ _ _ _ hrun
  rw [runningCycle_fresh _ _ _ _ _ _ _ _ hinv hl] at hrun
  simp only [Prod.mk.injEq, Except.ok.injEq] at hrun
  exact ⟨hrun.1.symm, hrun.2.symm⟩

theorem frames_pace {α : Type} (sleep_time elapsed : Int) (rest : List (Event α)) :
    frames (pace sleep_time elapsed :: rest) = frames rest := by
  unfold pace
  split <;> rfl

theorem frames_publish_pace {α : Type} (cloud : PointCloud α) (sleep_time elapsed : Int) :
    frames [.publish cloud, pace sleep_time elapsed] = [cloud] := by
  simp [frames, frames_pace]

theorem unit_first_cycle (mode : Bool) (sleep_time elapsed : Int) :
    runningCycle mode (storeOf unitWorld) "base" sleep_time LoopState.init liftBy5 0 elapsed =
      ([.publish unitFrame, pace sleep_time elapsed],
        .ok ⟨unitFrame, ⟨"intensity", [0]⟩, true⟩) := by
  cases mode <;>
    simp [storeOf, unitWorld, loadMeshes, unitLink, meshesMap.assign, runningCycle, linkLoop,
      linkBody, shapeLoop, Shape.type, Shape.asMesh, meshLoop, vertexLoop, unitMesh, writePoint,
      transformVertex, Affine3d.mul, Matrix3d.mulVec, Vector3d.add, liftBy5, attachChannel,
      LoopState.init, unitFrame]

theorem unit_main_frames (mode : Bool) :
    frames (main ⟨some "urdf", none, none, some mode⟩ unitWorld [.fresh liftBy5 0 0]).events =
      [⟨"base", 0, [⟨1, 0, 5⟩], [⟨"intensity", [0]⟩]⟩] := by
  have h : ∀ P : Int, runningCycle mode (storeOf unitWorld) unitWorld.getRootLinkName P
      LoopState.init liftBy5 0 0 = _ := fun P => unit_first_cycle mode P 0
  simp [main, sleepTime, publishFrequency, useVisualMesh, runLoop, cycle, h,
    frames_append, frames_startupLog, frames_pace, frames, unitFrame]

/-- C1. In both geometry modes, from any state the loop can reach and with every
mesh the mode reads present, a running cycle publishes a frame that holds, for every
store entry in store order and every vertex `v` of that entry, the point
`R * v + t`, where `R` and `t` are the linear part and the translation of the
entry's transform in the cycle's robot state. In particular the single vertex
`(1, 0, 0)` under the identity rotation and the translation `(0, 0, 5)` is emitted
as `(1, 0, 5)`. -/
theorem transform_correct {α : Type} [Add α] [Mul α] (use_visual_mesh : Bool)
    (meshes : meshesMap α) (root : String) (sleep_time : Int) (pre : List (CycleInput α))
    (s : LoopState α) (evs0 : List (Event α))
    (robot_state : RobotState α) (stamp : Nat) (elapsed : Int)
    (hreach : runLoop use_visual_mesh meshes root sleep_time pre LoopState.init = (evs0, .ok s))
    (hloaded : meshesLoaded use_visual_mesh meshes) :
    (∃ cloud s1,
      runningCycle use_visual_mesh meshes root sleep_time s robot_state stamp elapsed =
        ([.publish cloud, pace sleep_time elapsed], .ok s1) ∧
      cloud.points = meshes.flatMap (fun it =>
        (linkVertices use_visual_mesh it.2).map (fun v =>
          let R := (robot_state.getCollisionBodyTransform it.2.1 0).linear
          let t := (robot_state.getCollisionBodyTransform it.2.1 0).translation
          ⟨R.m00 * v.x + R.m01 * v.y + R.m02 * v.z + t.x,
           R.m10 * v.x + R.m11 * v.y + R.m12 * v.z + t.y,
           R.m20 * v.x + R.m21 * v.y + R.m22 * v.z + t.z⟩))) ∧
    (∀ mode : Bool,
      frames (main ⟨some "urdf", none, none, some mode⟩ unitWorld [.fresh liftBy5 0 0]).events =
        [⟨"base", 0, [⟨1, 0, 5⟩], [⟨"intensity", [0]⟩]⟩]) := by
  constructor
  · exact ⟨freshFrame use_visual_mesh meshes root robot_state stamp, _,
      runningCycle_fresh _ _ _ _ _ _ _ _ (reachable_inv _ _ _ _ _ _ _ hreach) hloaded, rfl⟩
  · exact unit_main_frames

/-- C1 at a concrete input: the robot `unitWorld` in collision mode, first cycle. -/
theorem transform_correct_witness :
    runLoop false (storeOf unitWorld) "base" 20000000 [] LoopState.init =
        ([], .ok LoopState.init) ∧
      meshesLoaded false (storeOf unitWorld) ∧
      ∃ (cloud : PointCloud ℚ) (s1 : LoopState ℚ),
        runningCycle false (storeOf unitWorld) "base" 20000000 LoopState.init liftBy5 0 0 =
          ([.publish cloud, pace 20000000 0], .ok s1) ∧
        cloud.points = [⟨1, 0, 5⟩] := by
  have hl : meshesLoaded false (storeOf unitWorld) := fun h => Bool.noConfusion h
  refine ⟨rfl, hl, ?_⟩
  obtain ⟨cloud, s1, h1, h2⟩ := (transform_correct false (storeOf unitWorld) "base" 20000000 []
    LoopState.init [] liftBy5 0 0 rfl hl).1
  refine ⟨cloud, s1, h1, ?_⟩
  rw [h2]
  simp [storeOf, unitWorld, loadMeshes, unitLink, meshesMap.assign, linkVertices, linkMeshes,
    Shape.asMesh, Mesh.vertexList, unitMesh, triples, liftBy5]

/-- C2. Every frame `main` publishes, for every parameter set, robot and sequence of
loop inputs, has exactly one channel, named `intensity`, with as many values as the
frame has points. -/
theorem tag_point_parity {α : Type} [Add α] [Mul α] (params : Params) (world : World α)
    (inputs : List (CycleInput α)) (cloud : PointCloud α)
    (h : cloud ∈ frames (main params world inputs).events) :
    ∃ ch, cloud.channels = [ch] ∧ ch.name = "intensity" ∧
      cloud.points.length = ch.values.length := by
  obtain ⟨robot_state, stamp, _, _, hc⟩ := main_frames params world inputs cloud h
  refine ⟨⟨"intensity", frameTags (useVisualMesh params) (storeOf world)⟩, ?_, rfl, ?_⟩
  · rw [hc]
    rfl
  · rw [hc]
    show (framePoints (useVisualMesh params) robot_state (storeOf world)).length = _
    rw [← frameWrites_fst (useVisualMesh params) robot_state (storeOf world) 0, List.length_map,
      frameWrites_length]

/-- C2 at a concrete input: the frame published for `unitWorld`. -/
theorem tag_point_parity_witness :
    unitFrame ∈ frames
        (main ⟨some "urdf", none, none, some false⟩ unitWorld [.fresh liftBy5 0 0]).events ∧
      ∃ ch, unitFrame.channels = [ch] ∧ ch.name = "intensity" ∧
        unitFrame.points.length = ch.values.length :=
  have hm : unitFrame ∈ frames
      (main ⟨some "urdf", none, none, some false⟩ unitWorld [.fresh liftBy5 0 0]).events := by
    rw [unit_main_frames false]
    exact List.mem_singleton.mpr rfl
  ⟨hm, tag_point_parity _ _ _ _ hm⟩

/-! ## Stable addressing (C3) -/

theorem framePoints_eq_place {α : Type} [Add α] [Mul α] (use_visual_mesh : Bool)
    (robot_state : RobotState α) (meshes : meshesMap α) :
    framePoints use_visual_mesh robot_state meshes =
      (frameVertices use_visual_mesh meshes).map (placeVertex robot_state) := by
  induction meshes with
  | nil => rfl
  | cons it rest ih =>
    simp only [framePoints, frameVertices, List.flatMap_cons, List.map_append, List.map_map] at ih ⊢
    rw [ih]
    rfl

theorem runLoop_timeouts {α : Type} [Add α] [Mul α] (use_visual_mesh : Bool)
    (meshes : meshesMap α) (root : String) (sleep_time : Int) (n : Nat)
    (rest : List (CycleInput α)) (s : LoopState α) :
    runLoop use_visual_mesh meshes root sleep_time
        (List.replicate n CycleInput.timeout ++ rest) s =
      (List.replicate n (Event.warn "Waiting for complete state !") ++
          (runLoop use_visual_mesh meshes root sleep_time rest s).1,
        (runLoop use_visual_mesh meshes root sleep_time rest s).2) := by
  induction n with
  | zero => simp
  | succ n ih =>
    simp only [List.replicate_succ, List.cons_append]
    rw [runLoop]
    simp only [cycle, ih, List.nil_append, List.singleton_append]

theorem twoSegments_loaded : meshesLoaded false (storeOf twoSegments) := by
  intro h
  cases h

theorem twoSegments_fresh (robot_state : RobotState ℚ) (stamp : Nat) :
    freshFrame false (storeOf twoSegments) "base" robot_state stamp =
      ⟨"base", stamp, triangle.vertexList.map (fun v => placeVertex robot_state (segmentA, v)),
        [⟨"intensity", [0, 0, 0]⟩]⟩ := by
  simp [freshFrame, framePoints, frameTags, storeOf, twoSegments, loadMeshes, segmentA, segmentB,
    meshesMap.assign, linkVertices, linkMeshes, Shape.asMesh, Mesh.vertexList, triangle, triples,
    placeVertex, List.enum, List.enumFrom, List.replicate]

theorem twoSegments_tags : frameTags false (storeOf twoSegments) = [0, 0, 0] := by
  have := congrArg (fun c => c.channels) (twoSegments_fresh liftBy5 0)
  simpa [freshFrame] using this

theorem twoSegments_first (sleep_time elapsed : Int) :
    runningCycle false (storeOf twoSegments) "base" sleep_time LoopState.init liftBy5 1 elapsed =
      ([.publish liftedTriangle, pace sleep_time elapsed],
        .ok ⟨liftedTriangle, ⟨"intensity", [0, 0, 0]⟩, true⟩) := by
  rw [runningCycle_fresh _ _ _ _ _ _ _ _ (Inv_init _ _) twoSegments_loaded, twoSegments_fresh,
    twoSegments_tags]
  simp [liftedTriangle, Mesh.vertexList, triangle, triples, placeVertex, liftBy5, toPoint32,
    Affine3d.mul, Matrix3d.mulVec, Vector3d.add]
  norm_num

theorem twoSegments_second (s : LoopState ℚ) (hinv : Inv false (storeOf twoSegments) s)
    (sleep_time elapsed : Int) :
    runningCycle false (storeOf twoSegments) "base" sleep_time s shiftBy1 2 elapsed =
      ([.publish shiftedTriangle, pace sleep_time elapsed],
        .ok ⟨shiftedTriangle, ⟨"intensity", [0, 0, 0]⟩, true⟩) := by
  rw [runningCycle_fresh _ _ _ _ _ _ _ _ hinv twoSegments_loaded, twoSegments_fresh,
    twoSegments_tags]
  simp [shiftedTriangle, Mesh.vertexList, triangle, triples, placeVertex, shiftBy1, toPoint32,
    Affine3d.mul, Matrix3d.mulVec, Vector3d.add]
  norm_num

/-- C3. Take a running cycle from any state the loop can reach that emits a frame `f1`,
then any number of timed-out cycles, then a running cycle with an arbitrary robot
state. The second running cycle emits a frame `f2` with as many points as `f1` and
the same channel (the same tag sequence); the points of `f1` and of `f2` are the
images, under the first and the second robot state, of one and the same list of
(link, vertex) pairs; and the second cycle yields exactly what a first pass from
the empty initial state yields for the second robot state. -/
theorem stable_addressing {α : Type} [Add α] [Mul α] (use_visual_mesh : Bool)
    (meshes : meshesMap α) (root : String) (sleep_time : Int) (pre : List (CycleInput α))
    (s s1 : LoopState α) (evs0 evs1 : List (Event α))
    (state1 : RobotState α) (stamp1 : Nat) (elapsed1 : Int)
    (waits : Nat) (state2 : RobotState α) (stamp2 : Nat) (elapsed2 : Int)
    (hreach : runLoop use_visual_mesh meshes root sleep_time pre LoopState.init = (evs0, .ok s))
    (hrun : runningCycle use_visual_mesh meshes root sleep_time s state1 stamp1 elapsed1 =
      (evs1, .ok s1)) :
    ∃ f1 f2 s2, frames evs1 = [f1] ∧
      runLoop use_visual_mesh meshes root sleep_time
          (List.replicate waits CycleInput.timeout ++ [CycleInput.fresh state2 stamp2 elapsed2])
          s1 =
        (List.replicate waits (Event.warn "Waiting for complete state !") ++
          [.publish f2, pace sleep_time elapsed2], .ok s2) ∧
      f2.points.length = f1.points.length ∧
      f2.channels = f1.channels ∧
      f1.points = (frameVertices use_visual_mesh meshes).map (placeVertex state1) ∧
      f2.points = (frameVertices use_visual_mesh meshes).map (placeVertex state2) ∧
      runningCycle use_visual_mesh meshes root sleep_time LoopState.init state2 stamp2 elapsed2 =
        ([.publish f2, pace sleep_time elapsed2], .ok s2) := by
  obtain ⟨he, hs1⟩ := runningCycle_frames _ _ _ _ _ _ _ _ _ _ _ _ hreach hrun
  have hl := runningCycle_loaded _ _ _ _ _ _ _ _ _ _ hrun
  have hinv1 : Inv use_visual_mesh meshes s1 := by
    rw [hs1]
    exact Inv_fresh _ _ _ _ _
  refine ⟨freshFrame use_visual_mesh meshes root state1 stamp1,
    freshFrame use_visual_mesh meshes root state2 stamp2,
    ⟨freshFrame use_visual_mesh meshes root state2 stamp2,
      ⟨"intensity", frameTags use_visual_mesh meshes⟩, true⟩, ?_, ?_, ?_, rfl, ?_, ?_, ?_⟩
  · rw [he, frames_publish_pace]
  · rw [runLoop_timeouts]
    simp only [runLoop, cycle, runningCycle_fresh _ _ _ _ _ _ _ _ hinv1 hl, List.append_nil]
  · simp only [freshFrame, framePoints_eq_place, List.length_map]
  · exact framePoints_eq_place _ _ _
  · exact framePoints_eq_place _ _ _
  · exact runningCycle_fresh _ _ _ _ _ _ _ _ (Inv_init _ _) hl

/-- C3 at a concrete input: segment `A` with three vertices and segment `B` with an
empty mesh path, lifted by 5 in the first frame and shifted by 1 in the second; both
frames have three points tagged `[0, 0, 0]`. -/
theorem stable_addressing_witness :
    runLoop false (storeOf twoSegments) "base" 20000000 [] LoopState.init =
        ([], .ok LoopState.init) ∧
      runningCycle false (storeOf twoSegments) "base" 20000000 LoopState.init liftBy5 1 0 =
        ([.publish liftedTriangle, pace 20000000 0],
          .ok ⟨liftedTriangle, ⟨"intensity", [0, 0, 0]⟩, true⟩) ∧
      (∃ f1 f2 s2, frames [.publish liftedTriangle, pace 20000000 0] = [f1] ∧
        runLoop false (storeOf twoSegments) "base" 20000000
            (List.replicate 0 CycleInput.timeout ++ [CycleInput.fresh shiftBy1 2 0])
            ⟨liftedTriangle, ⟨"intensity", [0, 0, 0]⟩, true⟩ =
          (List.replicate 0 (Event.warn "Waiting for complete state !") ++
            [.publish f2, pace 20000000 0], .ok s2) ∧
        f2.points.length = f1.points.length ∧
        f2.channels = f1.channels ∧
        f1.points = (frameVertices false (storeOf twoSegments)).map (placeVertex liftBy5) ∧
        f2.points = (frameVertices false (storeOf twoSegments)).map (placeVertex shiftBy1) ∧
        runningCycle false (storeOf twoSegments) "base" 20000000 LoopState.init shiftBy1 2 0 =
          ([.publish f2, pace 20000000 0], .ok s2)) ∧
      runningCycle false (storeOf twoSegments) "base" 20000000
          ⟨liftedTriangle, ⟨"intensity", [0, 0, 0]⟩, true⟩ shiftBy1 2 0 =
        ([.publish shiftedTriangle, pace 20000000 0],
          .ok ⟨shiftedTriangle, ⟨"intensity", [0, 0, 0]⟩, true⟩) ∧
      liftedTriangle.points = [⟨1, 0, 5⟩, ⟨0, 1, 5⟩, ⟨0, 0, 6⟩] ∧
      shiftedTriangle.points = [⟨2, 0, 0⟩, ⟨1, 1, 0⟩, ⟨1, 0, 1⟩] ∧
      liftedTriangle.channels = [⟨"intensity", [0, 0, 0]⟩] ∧
      shiftedTriangle.channels = [⟨"intensity", [0, 0, 0]⟩] := by
  have h1 := twoSegments_first 20000000 0
  have hinv : Inv false (storeOf twoSegments)
      ⟨liftedTriangle, ⟨"intensity", [0, 0, 0]⟩, true⟩ :=
    cycle_inv false (storeOf twoSegments) "base" 20000000 LoopState.init _
      (.fresh liftBy5 1 0) _ (Inv_init _ _) h1
  exact ⟨rfl, h1,
    stable_addressing false (storeOf twoSegments) "base" 20000000 [] LoopState.init _ [] _
      liftBy5 1 0 0 shiftBy1 2 0 rfl h1,
    twoSegments_second _ hinv _ _, rfl, rfl, rfl, rfl⟩

/-! ## Segment tags (C4) -/

theorem frameWrites_eq_enum {α : Type} [Add α] [Mul α] (use_visual_mesh : Bool)
    (robot_state : RobotState α) (meshes : meshesMap α) (link_nb : Nat) :
    frameWrites use_visual_mesh robot_state meshes link_nb =
      (meshes.enumFrom link_nb).flatMap (fun p =>
        (linkVertices use_visual_mesh p.2.2).map
          (fun v => (placeVertex robot_state (p.2.2.1, v), p.1))) := by
  induction meshes generalizing link_nb with
  | nil => rfl
  | cons it rest ih =>
    simp only [frameWrites, ih, List.enumFrom_cons, List.flatMap_cons]
    rfl

theorem zip_fst_snd {β γ : Type} (l : List (β × γ)) :
    (l.map Prod.fst).zip (l.map Prod.snd) = l := by
  induction l with
  | nil => rfl
  | cons a l ih => simp [ih]

theorem mem_frameTags {α : Type} (use_visual_mesh : Bool) (meshes : meshesMap α) (k : Nat) :
    k ∈ frameTags use_visual_mesh meshes ↔
      ∃ it, meshes[k]? = some it ∧ linkVertices use_visual_mesh it.2 ≠ [] := by
  simp only [frameTags, List.mem_flatMap, List.mem_replicate, List.mem_enum_iff_getElem?]
  constructor
  · rintro ⟨p, hp, hne, rfl⟩
    exact ⟨p.2, hp, fun h => hne (by simp [h])⟩
  · rintro ⟨it, hit, hne⟩
    exact ⟨(k, it), hit, fun h => hne (List.length_eq_zero.mp h), rfl⟩

theorem boxThenMesh_store :
    storeOf boxThenMesh = [("a_box", (boxLink, some unitMesh)), ("b_mesh", (meshLink, some unitMesh))] := by
  have h : ¬ ("b_mesh" < "a_box") := by simp; decide
  have h' : "a_box" < "b_mesh" := by simp; decide
  simp [storeOf, boxThenMesh, loadMeshes, boxLink, meshLink, meshesMap.assign, h, h']

theorem boxThenMesh_cycle (sleep_time elapsed : Int) :
    runningCycle false (storeOf boxThenMesh) "base" sleep_time LoopState.init liftBy5 0 elapsed =
      ([.publish ⟨"base", 0, [⟨1, 0, 5⟩], [⟨"intensity", [1]⟩]⟩, pace sleep_time elapsed],
        .ok ⟨⟨"base", 0, [⟨1, 0, 5⟩], [⟨"intensity", [1]⟩]⟩, ⟨"intensity", [1]⟩, true⟩) := by
  rw [boxThenMesh_store]
  simp [runningCycle, linkLoop, linkBody, shapeLoop, Shape.type, Shape.asMesh, meshLoop,
    vertexLoop, unitMesh, writePoint, transformVertex, Affine3d.mul, Matrix3d.mulVec,
    Vector3d.add, liftBy5, attachChannel, LoopState.init, boxLink, meshLink]

/-- C4, counterexample. Collision mode, a store of two segments: `a_box`, whose only
shape is a box, and `b_mesh`, a mesh of one vertex. The frame has the single tag 1:
the value 0 does not occur although the store has two segments. -/
theorem dense_tags_counterexample :
    (storeOf boxThenMesh).length = 2 ∧
      runningCycle false (storeOf boxThenMesh) "base" 20000000 LoopState.init liftBy5 0 0 =
        ([.publish ⟨"base", 0, [⟨1, 0, 5⟩], [⟨"intensity", [1]⟩]⟩, pace 20000000 0],
          .ok ⟨⟨"base", 0, [⟨1, 0, 5⟩], [⟨"intensity", [1]⟩]⟩, ⟨"intensity", [1]⟩, true⟩) ∧
      ¬ (∀ k, k < (storeOf boxThenMesh).length → k ∈ [1]) := by
  refine ⟨by rw [boxThenMesh_store]; rfl, boxThenMesh_cycle _ _, ?_⟩
  rw [boxThenMesh_store]
  intro h
  have := h 0 (by simp)
  simp at this

/-- C4, amended. From any state the loop can reach and with every mesh the mode reads
present, a running cycle publishes a frame whose (point, tag) pairs are, for the
store entry at position `k` (counted from 0), the transformed vertices of that entry
each paired with the tag `k`. Hence every tag is below the number of store entries,
and a value `k` occurs among the tags exactly when the store has an entry at
position `k` that contributes at least one vertex. -/
theorem segment_tags {α : Type} [Add α] [Mul α] (use_visual_mesh : Bool)
    (meshes : meshesMap α) (root : String) (sleep_time : Int) (pre : List (CycleInput α))
    (s : LoopState α) (evs0 : List (Event α))
    (robot_state : RobotState α) (stamp : Nat) (elapsed : Int)
    (hreach : runLoop use_visual_mesh meshes root sleep_time pre LoopState.init = (evs0, .ok s))
    (hloaded : meshesLoaded use_visual_mesh meshes) :
    ∃ cloud tags s1,
      runningCycle use_visual_mesh meshes root sleep_time s robot_state stamp elapsed =
        ([.publish cloud, pace sleep_time elapsed], .ok s1) ∧
      cloud.channels = [⟨"intensity", tags⟩] ∧
      cloud.points.length = tags.length ∧
      cloud.points.zip tags = meshes.enum.flatMap (fun p =>
        (linkVertices use_visual_mesh p.2.2).map
          (fun v => (placeVertex robot_state (p.2.2.1, v), p.1))) ∧
      (∀ t ∈ tags, t < meshes.length) ∧
      (∀ k, k ∈ tags ↔
        ∃ it, meshes[k]? = some it ∧ linkVertices use_visual_mesh it.2 ≠ []) := by
  refine ⟨freshFrame use_visual_mesh meshes root robot_state stamp,
    frameTags use_visual_mesh meshes, _,
    runningCycle_fresh _ _ _ _ _ _ _ _ (reachable_inv _ _ _ _ _ _ _ hreach) hloaded,
    rfl, ?_, ?_, ?_, mem_frameTags _ _⟩
  · show (framePoints use_visual_mesh robot_state meshes).length = _
    rw [← frameWrites_fst use_visual_mesh robot_state meshes 0, List.length_map,
      frameWrites_length]
  · show (framePoints use_visual_mesh robot_state meshes).zip _ = _
    rw [← frameWrites_fst use_visual_mesh robot_state meshes 0,
      ← frameWrites_tags use_visual_mesh robot_state meshes, zip_fst_snd, frameWrites_eq_enum]
    rfl
  · intro t ht
    obtain ⟨it, hit, _⟩ := (mem_frameTags _ _ _).mp ht
    exact (List.getElem?_eq_some_iff.mp hit).1

/-- C4, amended, at a concrete input: the two-segment robot whose first segment is a
box; the only tag is 1. -/
theorem segment_tags_witness :
    runLoop false (storeOf boxThenMesh) "base" 20000000 [] LoopState.init =
        ([], .ok LoopState.init) ∧
      meshesLoaded false (storeOf boxThenMesh) ∧
      ∃ (cloud : PointCloud ℚ) (tags : List Nat) (s1 : LoopState ℚ),
        runningCycle false (storeOf boxThenMesh) "base" 20000000 LoopState.init liftBy5 0 0 =
          ([.publish cloud, pace 20000000 0], .ok s1) ∧
        cloud.channels = [⟨"intensity", tags⟩] ∧
        tags = [1] := by
  have hl : meshesLoaded false (storeOf boxThenMesh) := fun h => Bool.noConfusion h
  refine ⟨rfl, hl, ?_⟩
  obtain ⟨cloud, tags, s1, h1, h2, _⟩ := segment_tags false (storeOf boxThenMesh) "base"
    20000000 [] LoopState.init [] liftBy5 0 0 rfl hl
  refine ⟨cloud, tags, s1, h1, h2, ?_⟩
  rw [boxThenMesh_cycle] at h1
  simp only [Prod.mk.injEq, List.cons.injEq, Event.publish.injEq, and_true, true_and] at h1
  rw [← h1.1] at h2
  simp only [List.cons.injEq, ChannelFloat32.mk.injEq, true_and, and_true] at h2
  exact h2.symm

/-! ## Store ordering (C5) -/

theorem mem_assign {α : Type} (k : String) (v : linkMap α) (meshes : meshesMap α)
    (x : String × linkMap α) (h : x ∈ meshesMap.assign k v meshes) :
    x = (k, v) ∨ x ∈ meshes := by
  induction meshes with
  | nil =>
    simp only [meshesMap.assign, List.mem_singleton] at h
    exact Or.inl h
  | cons a rest ih =>
    obtain ⟨k', v'⟩ := a
    simp only [meshesMap.assign] at h
    split at h
    · rcases List.mem_cons.mp h with h | h
      · exact Or.inl h
      · exact Or.inr h
    · split at h
      · rcases List.mem_cons.mp h with h | h
        · exact Or.inr (h ▸ List.mem_cons_self _ _)
        · rcases ih h with h | h
          · exact Or.inl h
          · exact Or.inr (List.mem_cons_of_mem _ h)
      · rcases List.mem_cons.mp h with h | h
        · exact Or.inl h
        · exact Or.inr (List.mem_cons_of_mem _ h)

theorem assign_ascending {α : Type} (k : String) (v : linkMap α) (meshes : meshesMap α)
    (h : keysAscending meshes) : keysAscending (meshesMap.assign k v meshes) := by
  induction meshes with
  | nil => simp [meshesMap.assign, keysAscending]
  | cons a rest ih =>
    obtain ⟨k', v'⟩ := a
    unfold keysAscending at h ih ⊢
    rw [List.pairwise_cons] at h
    simp only [meshesMap.assign]
    split
    · rename_i hlt
      refine List.pairwise_cons.mpr ⟨?_, List.pairwise_cons.mpr h⟩
      intro x hx
      rcases List.mem_cons.mp hx with rfl | hx
      · exact hlt
      · exact lt_trans hlt (h.1 x hx)
    · split
      · rename_i hgt
        refine List.pairwise_cons.mpr ⟨?_, ih h.2⟩
        intro x hx
        rcases mem_assign k v rest x hx with rfl | hx
        · exact hgt
        · exact h.1 x hx
      · rename_i h1 h2
        have heq : k = k' := le_antisymm (not_lt.mp h2) (not_lt.mp h1)
        subst heq
        exact List.pairwise_cons.mpr ⟨h.1, h.2⟩

theorem loadMeshes_ascending {α : Type} (load : String → Option (Mesh α))
    (links : List (LinkModel α)) (meshes : meshesMap α) (h : keysAscending meshes) :
    keysAscending (loadMeshes load links meshes) := by
  induction links generalizing meshes with
  | nil => exact h
  | cons link rest ih =>
    simp only [loadMeshes]
    split
    · exact ih _ (assign_ascending _ _ _ h)
    · exact ih _ h

theorem storeOf_ascending {α : Type} (world : World α) : keysAscending (storeOf world) :=
  loadMeshes_ascending _ _ _ List.Pairwise.nil

theorem mem_loadMeshes {α : Type} (load : String → Option (Mesh α))
    (links : List (LinkModel α)) (meshes : meshesMap α) (x : String × linkMap α)
    (h : x ∈ loadMeshes load links meshes) :
    x ∈ meshes ∨ ∃ link ∈ links, link.getVisualMeshFilename ≠ "" ∧
      x = (link.getName, (link, load link.getVisualMeshFilename)) := by
  induction links generalizing meshes with
  | nil => exact Or.inl h
  | cons link rest ih =>
    simp only [loadMeshes] at h
    split at h
    · rename_i hne
      rcases ih _ h with h | ⟨l, hl, hl2⟩
      · rcases mem_assign _ _ _ _ h with h | h
        · exact Or.inr ⟨link, List.mem_cons_self _ _, hne, h⟩
        · exact Or.inl h
      · exact Or.inr ⟨l, List.mem_cons_of_mem _ hl, hl2⟩
    · rcases ih _ h with h | ⟨l, hl, hl2⟩
      · exact Or.inl h
      · exact Or.inr ⟨l, List.mem_cons_of_mem _ hl, hl2⟩

theorem mem_storeOf {α : Type} (world : World α) (x : String × linkMap α)
    (h : x ∈ storeOf world) :
    ∃ link ∈ world.getLinkModelsWithCollisionGeometry, link.getVisualMeshFilename ≠ "" ∧
      x = (link.getName, (link, world.createMeshFromResource link.getVisualMeshFilename)) := by
  rcases mem_loadMeshes _ _ _ _ h with h | h
  · simp at h
  · exact h

theorem main_points {α : Type} [Add α] [Mul α] (params : Params) (world : World α)
    (inputs : List (CycleInput α)) (cloud : PointCloud α)
    (h : cloud ∈ frames (main params world inputs).events) :
    ∃ robot_state stamp elapsed, CycleInput.fresh robot_state stamp elapsed ∈ inputs ∧
      cloud.points = (storeOf world).flatMap (fun it =>
        (linkVertices (useVisualMesh params) it.2).map
          (fun v => placeVertex robot_state (it.2.1, v))) := by
  obtain ⟨robot_state, stamp, elapsed, hm, hc⟩ := main_frames params world inputs cloud h
  refine ⟨robot_state, stamp, elapsed, hm, ?_⟩
  rw [hc]
  rfl

theorem zBeforeA_store :
    storeOf zBeforeA = [("a_link", (linkA, some otherMesh)), ("z_link", (linkZ, some unitMesh))] := by
  have h : "a_link" < "z_link" := by simp; decide
  simp [storeOf, zBeforeA, loadMeshes, linkA, linkZ, meshesMap.assign, h]

theorem zBeforeA_frames :
    frames (main ⟨some "urdf", none, none, none⟩ zBeforeA [.fresh liftBy5 0 0]).events =
      [⟨"base", 0, [⟨0, 1, 5⟩, ⟨1, 0, 5⟩], [⟨"intensity", [0, 1]⟩]⟩] := by
  have hl : meshesLoaded false (storeOf zBeforeA) := by
    intro h
    cases h
  have h : ∀ P : Int, runningCycle false (storeOf zBeforeA) zBeforeA.getRootLinkName P
      LoopState.init liftBy5 0 0 = _ :=
    fun P => runningCycle_fresh _ _ _ _ _ _ _ _ (Inv_init _ _) hl
  simp only [main, sleepTime, publishFrequency, useVisualMesh, runLoop, cycle, h, Option.getD,
    zBeforeA_store]
  simp [frames_append, frames_startupLog, frames_pace, frames, freshFrame, framePoints, frameTags,
    linkVertices, linkMeshes, linkA, linkZ, Shape.asMesh, Mesh.vertexList,
    unitMesh, otherMesh, triples, toPoint32, Affine3d.mul, Matrix3d.mulVec, Vector3d.add, liftBy5,
    zBeforeA, List.enum, List.enumFrom, transformVertex, LoopState.init]

/-- C5, counterexample. The model lists `z_link` before `a_link`, both with a mesh.
The store is iterated in the order `a_link`, `z_link`, and in the published frame
the point of `a_link` (the vertex `(0,1,0)` lifted by 5) precedes the point of the
earlier-discovered `z_link` (the vertex `(1,0,0)` lifted by 5). -/
theorem store_order_counterexample :
    zBeforeA.getLinkModelsWithCollisionGeometry.map (fun link => link.getName) =
        ["z_link", "a_link"] ∧
      (storeOf zBeforeA).map (fun it => it.2.1.getName) = ["a_link", "z_link"] ∧
      frames (main ⟨some "urdf", none, none, none⟩ zBeforeA [.fresh liftBy5 0 0]).events =
        [⟨"base", 0, [⟨0, 1, 5⟩, ⟨1, 0, 5⟩], [⟨"intensity", [0, 1]⟩]⟩] ∧
      (storeOf zBeforeA).map (fun it => it.2.1.getName) ≠
        zBeforeA.getLinkModelsWithCollisionGeometry.map (fun link => link.getName) := by
  refine ⟨rfl, ?_, zBeforeA_frames, ?_⟩
  · rw [zBeforeA_store]
    rfl
  · rw [zBeforeA_store]
    simp [zBeforeA, linkA, linkZ]

/-- C5, amended. The store is iterated in strictly ascending order of the link names
(the key order of the `std::map`), whatever the order in which the model lists the
links; every entry is keyed by the name of its link, which is a link of the model
with a non-empty mesh file name; and the points of every published frame are the
contributions of the entries concatenated in that order. -/
theorem store_ordering {α : Type} [Add α] [Mul α] (params : Params) (world : World α)
    (inputs : List (CycleInput α)) :
    keysAscending (storeOf world) ∧
      (∀ it ∈ storeOf world, it.1 = it.2.1.getName ∧
        it.2.1 ∈ world.getLinkModelsWithCollisionGeometry ∧
        it.2.1.getVisualMeshFilename ≠ "") ∧
      (∀ cloud ∈ frames (main params world inputs).events,
        ∃ robot_state stamp elapsed, CycleInput.fresh robot_state stamp elapsed ∈ inputs ∧
          cloud.points = (storeOf world).flatMap (fun it =>
            (linkVertices (useVisualMesh params) it.2).map
              (fun v => placeVertex robot_state (it.2.1, v)))) := by
  refine ⟨storeOf_ascending world, ?_, fun cloud h => main_points params world inputs cloud h⟩
  intro it hit
  obtain ⟨link, hl, hne, rfl⟩ := mem_storeOf world it hit
  exact ⟨rfl, hl, hne⟩

/-- C5, amended, at a concrete input: the robot listing `z_link` before `a_link`. -/
theorem store_ordering_witness :
    (⟨"base", 0, [⟨0, 1, 5⟩, ⟨1, 0, 5⟩], [⟨"intensity", [0, 1]⟩]⟩ : PointCloud ℚ) ∈
        frames (main ⟨some "urdf", none, none, none⟩ zBeforeA [.fresh liftBy5 0 0]).events ∧
      ∃ robot_state stamp elapsed,
        CycleInput.fresh robot_state stamp elapsed ∈ [CycleInput.fresh liftBy5 0 0] ∧
        ([⟨0, 1, 5⟩, ⟨1, 0, 5⟩] : List (Point32 ℚ)) = (storeOf zBeforeA).flatMap (fun it =>
          (linkVertices false it.2).map (fun v => placeVertex robot_state (it.2.1, v))) :=
  have hm : (⟨"base", 0, [⟨0, 1, 5⟩, ⟨1, 0, 5⟩], [⟨"intensity", [0, 1]⟩]⟩ : PointCloud ℚ) ∈
      frames (main ⟨some "urdf", none, none, none⟩ zBeforeA [.fresh liftBy5 0 0]).events := by
    rw [zBeforeA_frames]
    exact List.mem_singleton.mpr rfl
  ⟨hm, (store_ordering ⟨some "urdf", none, none, none⟩ zBeforeA [.fresh liftBy5 0 0]).2.2 _ hm⟩

/-! ## Skip semantics (C6) -/

theorem mem_assign_self {α : Type} (k : String) (v : linkMap α) (meshes : meshesMap α) :
    (k, v) ∈ meshesMap.assign k v meshes := by
  induction meshes with
  | nil => simp [meshesMap.assign]
  | cons a rest ih =>
    obtain ⟨k', v'⟩ := a
    simp only [meshesMap.assign]
    split
    · exact List.mem_cons_self _ _
    · split
      · exact List.mem_cons_of_mem _ ih
      · exact List.mem_cons_self _ _

theorem mem_assign_of_ne {α : Type} (k : String) (v : linkMap α) (meshes : meshesMap α)
    (x : String × linkMap α) (hx : x ∈ meshes) (hne : x.1 ≠ k) :
    x ∈ meshesMap.assign k v meshes := by
  induction meshes with
  | nil => simp at hx
  | cons a rest ih =>
    obtain ⟨k', v'⟩ := a
    simp only [meshesMap.assign]
    split
    · exact List.mem_cons_of_mem _ hx
    · split
      · rcases List.mem_cons.mp hx with rfl | hx
        · exact List.mem_cons_self _ _
        · exact List.mem_cons_of_mem _ (ih hx)
      · rename_i h1 h2
        have heq : k = k' := le_antisymm (not_lt.mp h2) (not_lt.mp h1)
        rcases List.mem_cons.mp hx with rfl | hx
        · exact absurd heq.symm hne
        · exact List.mem_cons_of_mem _ hx

theorem loadMeshes_keep {α : Type} (load : String → Option (Mesh α))
    (links : List (LinkModel α)) (meshes : meshesMap α) (x : String × linkMap α)
    (hx : x ∈ meshes) (hne : ∀ link ∈ links, link.getName ≠ x.1) :
    x ∈ loadMeshes load links meshes := by
  induction links generalizing meshes with
  | nil => exact hx
  | cons link rest ih =>
    have hrest : ∀ l ∈ rest, l.getName ≠ x.1 := fun l hl => hne l (List.mem_cons_of_mem _ hl)
    simp only [loadMeshes]
    split
    · exact ih _ (mem_assign_of_ne _ _ _ _ hx (fun h => hne link (List.mem_cons_self _ _) h.symm))
        hrest
    · exact ih _ hx hrest

theorem loadMeshes_mem {α : Type} (load : String → Option (Mesh α))
    (links : List (LinkModel α)) (meshes : meshesMap α)
    (hnd : (links.map (fun link => link.getName)).Nodup)
    (link : LinkModel α) (hl : link ∈ links) (hne : link.getVisualMeshFilename ≠ "") :
    (link.getName, (link, load link.getVisualMeshFilename)) ∈ loadMeshes load links meshes := by
  induction links generalizing meshes with
  | nil => simp at hl
  | cons a rest ih =>
    simp only [List.map_cons, List.nodup_cons, List.mem_map, not_exists, not_and] at hnd
    rcases List.mem_cons.mp hl with rfl | hl
    · simp only [loadMeshes, hne, ne_eq, not_false_eq_true, if_true]
      exact loadMeshes_keep _ _ _ _ (mem_assign_self _ _ _) (fun l hl' => hnd.1 l hl')
    · simp only [loadMeshes]
      split
      · exact ih _ hnd.2 hl
      · exact ih _ hnd.2 hl

theorem loadMeshes_filter {α : Type} (load : String → Option (Mesh α))
    (links : List (LinkModel α)) (meshes : meshesMap α) :
    loadMeshes load (links.filter (fun link => link.getVisualMeshFilename ≠ "")) meshes =
      loadMeshes load links meshes := by
  induction links generalizing meshes with
  | nil => rfl
  | cons a rest ih =>
    by_cases h : a.getVisualMeshFilename = ""
    · rw [List.filter_cons_of_neg (by simp [h])]
      simp only [loadMeshes, h, ne_eq, not_true_eq_false, if_false]
      exact ih meshes
    · rw [List.filter_cons_of_pos (by simp [h])]
      simp only [loadMeshes, h, ne_eq, not_false_eq_true, if_true]
      exact ih _

theorem main_frames_eq {α : Type} [Add α] [Mul α] (params : Params) (world : World α)
    (inputs : List (CycleInput α)) :
    frames (main params world inputs).events =
      match params.robot_description, sleepTime (publishFrequency params) with
      | some _, .ok sleep_time =>
        frames (runLoop (useVisualMesh params) (storeOf world) world.getRootLinkName sleep_time
          inputs LoopState.init).1
      | _, _ => [] := by
  unfold main
  cases params.robot_description with
  | none => simp [frames]
  | some d =>
    cases sleepTime (publishFrequency params) with
    | error e => simp [frames_append, frames_startupLog, frames]
    | ok sleep_time =>
      simp only
      split <;> simp [frames_append, frames_startupLog, frames]

theorem linkVertices_no_mesh {α : Type} (link_p : linkMap α)
    (h : ∀ shape ∈ link_p.1.getShapes, shape.type ≠ ShapeType.MESH) :
    linkVertices false link_p = [] := by
  have : link_p.1.getShapes.filterMap Shape.asMesh = [] := by
    rw [List.filterMap_eq_nil_iff]
    intro shape hs
    have := h shape hs
    cases shape <;> simp [Shape.asMesh, Shape.type] at this ⊢
  simp [linkVertices, linkMeshes, this]

theorem main_pairs {α : Type} [Add α] [Mul α] (params : Params) (world : World α)
    (inputs : List (CycleInput α)) (cloud : PointCloud α)
    (h : cloud ∈ frames (main params world inputs).events) :
    ∃ robot_state stamp elapsed tags,
      CycleInput.fresh robot_state stamp elapsed ∈ inputs ∧
      cloud.channels = [⟨"intensity", tags⟩] ∧
      cloud.points.length = tags.length ∧
      cloud.points.zip tags = (storeOf world).enum.flatMap (fun p =>
        ((if useVisualMesh params = false then p.2.2.1.getShapes.filterMap Shape.asMesh
            else p.2.2.2.toList).flatMap Mesh.vertexList).map
          (fun v => (placeVertex robot_state (p.2.2.1, v), p.1))) := by
  obtain ⟨robot_state, stamp, elapsed, hm, hc⟩ := main_frames params world inputs cloud h
  refine ⟨robot_state, stamp, elapsed, frameTags (useVisualMesh params) (storeOf world), hm, ?_,
    ?_, ?_⟩
  · rw [hc]
    rfl
  · rw [hc]
    show (framePoints (useVisualMesh params) robot_state (storeOf world)).length = _
    rw [← frameWrites_fst (useVisualMesh params) robot_state (storeOf world) 0, List.length_map,
      frameWrites_length]
  · rw [hc]
    show (framePoints (useVisualMesh params) robot_state (storeOf world)).zip _ = _
    rw [← frameWrites_fst (useVisualMesh params) robot_state (storeOf world) 0,
      ← frameWrites_tags (useVisualMesh params) robot_state (storeOf world), zip_fst_snd,
      frameWrites_eq_enum]
    rfl

theorem mixedWorld_frames :
    frames (main ⟨some "urdf", none, none, some false⟩ mixedWorld [.fresh liftBy5 0 0]).events =
      [⟨"base", 0, [⟨1, 0, 5⟩], [⟨"intensity", [0]⟩]⟩] := by
  simp [main, sleepTime, publishFrequency, useVisualMesh, runLoop, cycle, storeOf, mixedWorld,
    loadMeshes, mixedLink, meshesMap.assign, runningCycle, linkLoop, linkBody, shapeLoop,
    Shape.type, Shape.asMesh, meshLoop, vertexLoop, unitMesh, writePoint, transformVertex,
    Affine3d.mul, Matrix3d.mulVec, Vector3d.add, liftBy5, attachChannel, LoopState.init,
    frames_append, frames_startupLog, frames_pace, frames]

/-- C6, counterexample. Collision mode, one segment with a mesh file whose collision
shapes are a box and a one-vertex mesh. The segment has a non-mesh primitive, yet the
frame holds one point and one tag entry for it. -/
theorem skip_counterexample :
    (Shape.box : Shape ℚ) ∈ mixedLink.getShapes ∧
      (Shape.box : Shape ℚ).type ≠ ShapeType.MESH ∧
      mixedWorld.getLinkModelsWithCollisionGeometry = [mixedLink] ∧
      frames (main ⟨some "urdf", none, none, some false⟩ mixedWorld
          [.fresh liftBy5 0 0]).events =
        [⟨"base", 0, [⟨1, 0, 5⟩], [⟨"intensity", [0]⟩]⟩] := by
  refine ⟨?_, ?_, rfl, mixedWorld_frames⟩
  · simp [mixedLink]
  · simp [Shape.type]

/-- C6, amended. (1) No store entry has an empty mesh file name, and deleting the links
with an empty mesh file name from the model changes no published frame. (2) The store
entries are links of the model with a non-empty mesh file name, each with the mesh
loaded from that file; when link names are distinct, every such link is stored.
(3) A shape whose type is not `MESH` is dropped by the shape filter, and in collision
mode a link all of whose shapes are not meshes contributes no vertex. (4) In every
published frame the (point, tag) pairs are, entry by entry in store order, the
transformed vertices of the mesh-type collision shapes of the entry's link
(collision mode) or of the entry's loaded mesh (visual mode), paired with the
position of the entry. -/
theorem skip_semantics {α : Type} [Add α] [Mul α] (params : Params) (world : World α)
    (inputs : List (CycleInput α)) :
    (∀ it ∈ storeOf world, it.2.1.getVisualMeshFilename ≠ "") ∧
    frames (main params (withoutEmptyPaths world) inputs).events =
      frames (main params world inputs).events ∧
    (∀ it ∈ storeOf world, ∃ link ∈ world.getLinkModelsWithCollisionGeometry,
      link.getVisualMeshFilename ≠ "" ∧
      it = (link.getName, (link, world.createMeshFromResource link.getVisualMeshFilename))) ∧
    ((world.getLinkModelsWithCollisionGeometry.map (fun link => link.getName)).Nodup →
      ∀ link ∈ world.getLinkModelsWithCollisionGeometry, link.getVisualMeshFilename ≠ "" →
        (link.getName, (link, world.createMeshFromResource link.getVisualMeshFilename)) ∈
          storeOf world) ∧
    (∀ shape : Shape α, shape.type ≠ ShapeType.MESH → shape.asMesh = none) ∧
    (∀ link_p : linkMap α, (∀ shape ∈ link_p.1.getShapes, shape.type ≠ ShapeType.MESH) →
      linkVertices false link_p = []) ∧
    (∀ cloud ∈ frames (main params world inputs).events,
      ∃ robot_state stamp elapsed tags,
        CycleInput.fresh robot_state stamp elapsed ∈ inputs ∧
        cloud.channels = [⟨"intensity", tags⟩] ∧
        cloud.points.length = tags.length ∧
        cloud.points.zip tags = (storeOf world).enum.flatMap (fun p =>
          ((if useVisualMesh params = false then p.2.2.1.getShapes.filterMap Shape.asMesh
              else p.2.2.2.toList).flatMap Mesh.vertexList).map
            (fun v => (placeVertex robot_state (p.2.2.1, v), p.1)))) := by
  refine ⟨?_, ?_, mem_storeOf world, ?_, ?_, linkVertices_no_mesh,
    fun cloud h => main_pairs params world inputs cloud h⟩
  · intro it hit
    obtain ⟨link, _, hne, rfl⟩ := mem_storeOf world it hit
    exact hne
  · have hstore : storeOf (withoutEmptyPaths world) = storeOf world :=
      loadMeshes_filter _ _ _
    rw [main_frames_eq, main_frames_eq, hstore]
    rfl
  · intro hnd link hl hne
    exact loadMeshes_mem _ _ _ hnd link hl hne
  · intro shape h
    cases shape <;> simp [Shape.asMesh, Shape.type] at h ⊢

/-- C6, amended, at a concrete input: the robot of the single link with a box and a
mesh. -/
theorem skip_semantics_witness :
    (⟨"base", 0, [⟨1, 0, 5⟩], [⟨"intensity", [0]⟩]⟩ : PointCloud ℚ) ∈
        frames (main ⟨some "urdf", none, none, some false⟩ mixedWorld
          [.fresh liftBy5 0 0]).events ∧
      ∃ robot_state stamp elapsed tags,
        CycleInput.fresh robot_state stamp elapsed ∈ [CycleInput.fresh liftBy5 0 0] ∧
        [(⟨"intensity", [0]⟩ : ChannelFloat32)] = [⟨"intensity", tags⟩] ∧
        ([⟨1, 0, 5⟩] : List (Point32 ℚ)).length = tags.length ∧
        ([⟨1, 0, 5⟩] : List (Point32 ℚ)).zip tags = (storeOf mixedWorld).enum.flatMap (fun p =>
          ((if false = false then p.2.2.1.getShapes.filterMap Shape.asMesh
              else p.2.2.2.toList).flatMap Mesh.vertexList).map
            (fun v => (placeVertex robot_state (p.2.2.1, v), p.1))) :=
  have hm : (⟨"base", 0, [⟨1, 0, 5⟩], [⟨"intensity", [0]⟩]⟩ : PointCloud ℚ) ∈
      frames (main ⟨some "urdf", none, none, some false⟩ mixedWorld
        [.fresh liftBy5 0 0]).events := by
    rw [mixedWorld_frames]
    exact List.mem_singleton.mpr rfl
  ⟨hm, (skip_semantics ⟨some "urdf", none, none, some false⟩ mixedWorld
    [.fresh liftBy5 0 0]).2.2.2.2.2.2 _ hm⟩

/-! ## Pacing, time-outs and start-up failure (C7, C8, C9) -/

theorem runningCycle_events {α : Type} [Add α] [Mul α] (use_visual_mesh : Bool)
    (meshes : meshesMap α) (root : String) (sleep_time : Int) (s s1 : LoopState α)
    (robot_state : RobotState α) (stamp : Nat) (elapsed : Int) (evs : List (Event α))
    (h : runningCycle use_visual_mesh meshes root sleep_time s robot_state stamp elapsed =
      (evs, .ok s1)) :
    ∃ cloud, evs = [.publish cloud, pace sleep_time elapsed] := by
  unfold runningCycle at h
  cases hb : linkLoop s.initialized use_visual_mesh robot_state meshes 0
      ⟨s.cloud.points, s.link_info_channel.values, 0⟩ with
  | error e => simp [hb] at h
  | ok b =>
    simp only [hb] at h
    cases ha : attachChannel s.initialized s.cloud.channels
        ⟨s.link_info_channel.name, b.values⟩ with
    | error e => simp [ha] at h
    | ok channels =>
      simp only [ha, Prod.mk.injEq] at h
      exact ⟨_, h.1.symm⟩

theorem fromSec_near (d : ℚ) :
    2 * |(Duration.fromSec d : ℚ) - d * 1000000000| ≤ 1 := by
  unfold Duration.fromSec
  have h1 := Int.floor_le ((d - ((Int.floor d : Int) : ℚ)) * 1000000000 + 1 / 2)
  have h2 := Int.lt_floor_add_one ((d - ((Int.floor d : Int) : ℚ)) * 1000000000 + 1 / 2)
  simp only [Int.cast_add, Int.cast_mul, Int.cast_ofNat]
  have h3 : |((Int.floor d : Int) : ℚ) * 1000000000 +
      ((Int.floor ((d - ((Int.floor d : Int) : ℚ)) * 1000000000 + 1 / 2) : Int) : ℚ) -
      d * 1000000000| ≤ 1 / 2 := by
    rw [abs_le]
    constructor <;> linarith
  linarith

theorem fromSec_exact (f N : Int) (hf : f ≠ 0) (h : f * N = 1000000000) :
    Duration.fromSec (1 / (f : ℚ)) = N := by
  have hfq : (f : ℚ) ≠ 0 := Int.cast_ne_zero.mpr hf
  have hq : (1 / (f : ℚ)) * 1000000000 = (N : ℚ) := by
    have : (f : ℚ) * (N : ℚ) = 1000000000 := by exact_mod_cast h
    field_simp
    linarith
  unfold Duration.fromSec
  have harg : (1 / (f : ℚ) - ((Int.floor (1 / (f : ℚ)) : Int) : ℚ)) * 1000000000 + 1 / 2 =
      ((N - Int.floor (1 / (f : ℚ)) * 1000000000 : Int) : ℚ) + 1 / 2 := by
    push_cast
    linarith
  have hfl : Int.floor (((N - Int.floor (1 / (f : ℚ)) * 1000000000 : Int) : ℚ) + 1 / 2) =
      N - Int.floor (1 / (f : ℚ)) * 1000000000 := by
    rw [Int.floor_eq_iff]
    constructor <;> norm_num
  simp only [harg, hfl]
  ring

theorem fromSec_third : Duration.fromSec (1 / ((3 : Int) : ℚ)) = 333333333 := by
  unfold Duration.fromSec
  have h0 : Int.floor (1 / ((3 : Int) : ℚ)) = 0 := by
    rw [Int.floor_eq_iff]
    constructor <;> norm_num
  have h1 : Int.floor ((1 / ((3 : Int) : ℚ) - ((0 : Int) : ℚ)) * 1000000000 + 1 / 2) =
      333333333 := by
    rw [Int.floor_eq_iff]
    constructor <;> norm_num
  simp only [h0, h1]
  norm_num

theorem runLoop_append {α : Type} [Add α] [Mul α] (use_visual_mesh : Bool)
    (meshes : meshesMap α) (root : String) (sleep_time : Int)
    (xs ys : List (CycleInput α)) (s s1 : LoopState α) (evs : List (Event α))
    (h : runLoop use_visual_mesh meshes root sleep_time xs s = (evs, .ok s1)) :
    runLoop use_visual_mesh meshes root sleep_time (xs ++ ys) s =
      (evs ++ (runLoop use_visual_mesh meshes root sleep_time ys s1).1,
        (runLoop use_visual_mesh meshes root sleep_time ys s1).2) := by
  induction xs generalizing s evs with
  | nil =>
    simp only [runLoop, Prod.mk.injEq, Except.ok.injEq] at h
    rw [← h.1, ← h.2]
    rfl
  | cons inp rest ih =>
    rw [List.cons_append, runLoop]
    rw [runLoop] at h
    rcases hc : cycle use_visual_mesh meshes root sleep_time s inp with ⟨e1, r1⟩
    cases r1 with
    | error e => simp [hc] at h
    | ok s2 =>
      simp only [hc, Prod.mk.injEq] at h ⊢
      rw [ih s2 _ (Prod.ext rfl h.2), ← h.1]
      simp

theorem runLoop_total {α : Type} [Add α] [Mul α] (use_visual_mesh : Bool)
    (meshes : meshesMap α) (root : String) (sleep_time : Int)
    (inputs : List (CycleInput α)) (s : LoopState α)
    (hinv : Inv use_visual_mesh meshes s) (hl : meshesLoaded use_visual_mesh meshes) :
    ∃ evs s1, runLoop use_visual_mesh meshes root sleep_time inputs s = (evs, .ok s1) ∧
      Inv use_visual_mesh meshes s1 := by
  induction inputs generalizing s with
  | nil => exact ⟨[], s, rfl, hinv⟩
  | cons inp rest ih =>
    cases inp with
    | timeout =>
      obtain ⟨evs, s1, h, hi⟩ := ih s hinv
      exact ⟨[.warn "Waiting for complete state !"] ++ evs, s1,
        by simp only [runLoop, cycle, h], hi⟩
    | fresh robot_state stamp elapsed =>
      obtain ⟨evs, s1, h, hi⟩ := ih _ (Inv_fresh use_visual_mesh meshes root robot_state stamp)
      exact ⟨[.publish (freshFrame use_visual_mesh meshes root robot_state stamp),
          pace sleep_time elapsed] ++ evs, s1, by
        simp only [runLoop, cycle, runningCycle_fresh _ _ _ _ _ _ _ _ hinv hl, h], hi⟩

theorem main_last_cycle {α : Type} [Add α] [Mul α] (params : Params) (world : World α)
    (pre : List (CycleInput α)) (robot_state : RobotState α) (stamp : Nat)
    (elapsed sleep_time : Int)
    (hdesc : params.robot_description ≠ none)
    (hsleep : sleepTime (publishFrequency params) = .ok sleep_time)
    (hloaded : meshesLoaded (useVisualMesh params) (storeOf world)) :
    ∃ before cloud,
      main params world (pre ++ [CycleInput.fresh robot_state stamp elapsed]) =
        ⟨before ++ [.publish cloud, pace sleep_time elapsed], .ok 0⟩ := by
  obtain ⟨evs, s1, hpre, hinv⟩ := runLoop_total (useVisualMesh params) (storeOf world)
    world.getRootLinkName sleep_time pre LoopState.init (Inv_init _ _) hloaded
  have hrun := runLoop_append _ _ _ _ pre [CycleInput.fresh robot_state stamp elapsed] _ _ _ hpre
  simp only [runLoop, cycle, runningCycle_fresh _ _ _ _ _ _ _ _ hinv hloaded,
    List.append_nil] at hrun
  cases hd : params.robot_description with
  | none => exact absurd hd hdesc
  | some d =>
    refine ⟨[.info "Loading robot from the parameter server"] ++ startupLog params world ++
      [.info "Starting"] ++ evs,
      freshFrame (useVisualMesh params) (storeOf world) world.getRootLinkName robot_state stamp,
      ?_⟩
    simp only [main, hd, hsleep, hrun, List.append_assoc]

theorem sleepTime_ok (publish_frequency : Int) (hf : publish_frequency ≠ 0) :
    sleepTime publish_frequency = .ok (Duration.fromSec (1 / (publish_frequency : ℚ))) := by
  unfold sleepTime
  rw [if_neg hf]

theorem unitWorld_loaded (mode : Bool) : meshesLoaded mode (storeOf unitWorld) := by
  intro _ it hit
  simp [storeOf, unitWorld, loadMeshes, unitLink, meshesMap.assign] at hit
  rw [hit]
  simp

theorem unitWorld_three_hertz :
    main ⟨some "urdf", none, some 3, none⟩ unitWorld [.fresh liftBy5 0 333333333] =
      ⟨[.info "Loading robot from the parameter server",
          .warn "joint_states_topic will be set to default : joint_states",
          .info "Using collision mesh",
          .info "- link.stl",
          .info "Starting",
          .publish unitFrame,
          .infoThrottle 1 "Loop is slower then expected period"], .ok 0⟩ := by
  have hs : sleepTime (publishFrequency ⟨some "urdf", none, some 3, none⟩) = .ok 333333333 := by
    rw [← fromSec_third]
    exact sleepTime_ok 3 (by decide)
  have hc := unit_first_cycle false 333333333 333333333
  have hp : (pace 333333333 333333333 : Event ℚ) =
      .infoThrottle 1 "Loop is slower then expected period" := by
    simp [pace]
  rw [hp] at hc
  have hr : runLoop (useVisualMesh ⟨some "urdf", none, some 3, none⟩) (storeOf unitWorld)
      unitWorld.getRootLinkName 333333333 [.fresh liftBy5 0 333333333] LoopState.init =
      ([.publish unitFrame, .infoThrottle 1 "Loop is slower then expected period"],
        .ok ⟨unitFrame, ⟨"intensity", [0]⟩, true⟩) := by
    show runLoop false (storeOf unitWorld) "base" 333333333 [.fresh liftBy5 0 333333333]
      LoopState.init = _
    simp only [runLoop, cycle, hc, List.append_nil]
  simp only [main, hs, hr]
  simp [startupLog, unitWorld, unitLink]

/-- C7, counterexample. At `publish_frequency = 3` the period held by `sleep_time` is
333333333 ns. A cycle that took 333333333 ns is shorter than 1/3 of a second, so a
period of exactly `1 / publish_frequency` would make the loop sleep a third of a
nanosecond; the loop does not sleep and issues the overrun message. -/
theorem pacing_counterexample :
    ((333333333 : Int) : ℚ) / 1000000000 < 1 / ((3 : Int) : ℚ) ∧
      sleepTime 3 = .ok 333333333 ∧
      main ⟨some "urdf", none, some 3, none⟩ unitWorld [.fresh liftBy5 0 333333333] =
        ⟨[.info "Loading robot from the parameter server",
            .warn "joint_states_topic will be set to default : joint_states",
            .info "Using collision mesh",
            .info "- link.stl",
            .info "Starting",
            .publish unitFrame,
            .infoThrottle 1 "Loop is slower then expected period"], .ok 0⟩ := by
  refine ⟨by norm_num, ?_, unitWorld_three_hertz⟩
  rw [← fromSec_third]
  exact sleepTime_ok 3 (by decide)

/-- C7, amended. With a non-zero configured `publish_frequency` the period `P` of the
loop `main` runs is `1 / publish_frequency` as a `ros::Duration`: a whole number of
nanoseconds within half a nanosecond of `1 / publish_frequency`, equal to it whenever
that quotient is a whole number of nanoseconds. After any earlier cycles, a running
cycle with measured compute time `elapsed` publishes its frame and then, if
`elapsed < P`, sleeps `P - elapsed` (compute time plus sleep is `P`), and otherwise
does not sleep and issues the throttled message that the loop is slower than the
period. When the parameter is not set the same holds with `P` = 20000000 ns, which is
1/50 of a second. -/
theorem pacing_decision {α : Type} [Add α] [Mul α] (description : String)
    (joint_states : Option String) (use_visual_mesh : Option Bool) (publish_frequency : Int)
    (world : World α) (pre : List (CycleInput α)) (robot_state : RobotState α) (stamp : Nat)
    (elapsed : Int) (hf : publish_frequency ≠ 0)
    (hloaded : meshesLoaded (use_visual_mesh.getD false) (storeOf world)) :
    2 * |(Duration.fromSec (1 / (publish_frequency : ℚ)) : ℚ) -
        1 / (publish_frequency : ℚ) * 1000000000| ≤ 1 ∧
    (∀ N : Int, publish_frequency * N = 1000000000 →
      Duration.fromSec (1 / (publish_frequency : ℚ)) = N) ∧
    (elapsed < Duration.fromSec (1 / (publish_frequency : ℚ)) →
      ∃ before cloud,
        main ⟨some description, joint_states, some publish_frequency, use_visual_mesh⟩ world
            (pre ++ [CycleInput.fresh robot_state stamp elapsed]) =
          ⟨before ++ [.publish cloud,
            .sleep (Duration.fromSec (1 / (publish_frequency : ℚ)) - elapsed)], .ok 0⟩) ∧
    (Duration.fromSec (1 / (publish_frequency : ℚ)) ≤ elapsed →
      ∃ before cloud,
        main ⟨some description, joint_states, some publish_frequency, use_visual_mesh⟩ world
            (pre ++ [CycleInput.fresh robot_state stamp elapsed]) =
          ⟨before ++ [.publish cloud,
            .infoThrottle 1 "Loop is slower then expected period"], .ok 0⟩) ∧
    elapsed + (Duration.fromSec (1 / (publish_frequency : ℚ)) - elapsed) =
      Duration.fromSec (1 / (publish_frequency : ℚ)) ∧
    (elapsed < 20000000 →
      ∃ before cloud,
        main ⟨some description, joint_states, none, use_visual_mesh⟩ world
            (pre ++ [CycleInput.fresh robot_state stamp elapsed]) =
          ⟨before ++ [.publish cloud, .sleep (20000000 - elapsed)], .ok 0⟩) ∧
    (20000000 ≤ elapsed →
      ∃ before cloud,
        main ⟨some description, joint_states, none, use_visual_mesh⟩ world
            (pre ++ [CycleInput.fresh robot_state stamp elapsed]) =
          ⟨before ++ [.publish cloud,
            .infoThrottle 1 "Loop is slower then expected period"], .ok 0⟩) ∧
    ((20000000 : Int) : ℚ) / 1000000000 = 1 / 50 := by
  have hset := main_last_cycle
    ⟨some description, joint_states, some publish_frequency, use_visual_mesh⟩ world pre
    robot_state stamp elapsed _ (by simp) (sleepTime_ok publish_frequency hf) hloaded
  have hdef : sleepTime (publishFrequency ⟨some description, joint_states, none,
      use_visual_mesh⟩) = .ok 20000000 := by
    rw [← fromSec_exact 50 20000000 (by decide) (by decide)]
    exact sleepTime_ok 50 (by decide)
  have hunset := main_last_cycle
    ⟨some description, joint_states, none, use_visual_mesh⟩ world pre
    robot_state stamp elapsed _ (by simp) hdef hloaded
  refine ⟨fromSec_near _, fun N hN => fromSec_exact _ _ hf hN, ?_, ?_, by omega, ?_, ?_,
    by norm_num⟩
  · intro hlt
    obtain ⟨before, cloud, h⟩ := hset
    exact ⟨before, cloud, by rw [h, pace, if_pos hlt]⟩
  · intro hle
    obtain ⟨before, cloud, h⟩ := hset
    exact ⟨before, cloud, by rw [h, pace, if_neg (not_lt.mpr hle)]⟩
  · intro hlt
    obtain ⟨before, cloud, h⟩ := hunset
    exact ⟨before, cloud, by rw [h, pace, if_pos hlt]⟩
  · intro hle
    obtain ⟨before, cloud, h⟩ := hunset
    exact ⟨before, cloud, by rw [h, pace, if_neg (not_lt.mpr hle)]⟩

/-- C7, amended, at a concrete input: `unitWorld` at 50 Hz, where the period is
20000000 ns; a cycle of 10000000 ns is followed by a sleep of 20000000 - 10000000 ns,
a cycle of 100000000 ns by the overrun message. -/
theorem pacing_decision_witness :
    (50 : Int) ≠ 0 ∧ meshesLoaded ((none : Option Bool).getD false) (storeOf unitWorld) ∧
      Duration.fromSec (1 / ((50 : Int) : ℚ)) = 20000000 ∧
      (10000000 : Int) < Duration.fromSec (1 / ((50 : Int) : ℚ)) ∧
      (∃ before cloud,
        main ⟨some "urdf", none, some 50, none⟩ unitWorld
            ([] ++ [CycleInput.fresh liftBy5 0 10000000]) =
          ⟨before ++ [.publish cloud,
            .sleep (Duration.fromSec (1 / ((50 : Int) : ℚ)) - 10000000)], .ok 0⟩) ∧
      Duration.fromSec (1 / ((50 : Int) : ℚ)) ≤ (100000000 : Int) ∧
      (∃ before cloud,
        main ⟨some "urdf", none, some 50, none⟩ unitWorld
            ([] ++ [CycleInput.fresh liftBy5 0 100000000]) =
          ⟨before ++ [.publish cloud,
            .infoThrottle 1 "Loop is slower then expected period"], .ok 0⟩) := by
  have hl := unitWorld_loaded ((none : Option Bool).getD false)
  have fast := pacing_decision "urdf" none none 50 unitWorld [] liftBy5 0 10000000
    (by decide) hl
  have slow := pacing_decision "urdf" none none 50 unitWorld [] liftBy5 0 100000000
    (by decide) hl
  have hP : Duration.fromSec (1 / ((50 : Int) : ℚ)) = 20000000 :=
    fast.2.1 20000000 (by decide)
  have hlt : (10000000 : Int) < Duration.fromSec (1 / ((50 : Int) : ℚ)) := by
    rw [hP]
    decide
  have hle : Duration.fromSec (1 / ((50 : Int) : ℚ)) ≤ (100000000 : Int) := by
    rw [hP]
    decide
  exact ⟨by decide, hl, hP, hlt, fast.2.2.1 hlt, hle, slow.2.2.2.1 hle⟩

/-- C8. A cycle in which `waitForCurrentState` times out logs the warning, publishes
nothing, ends without a fault and leaves the whole loop state (points, tags, frame
id, time stamp, channels, `initialized`) as it was; the loop then goes on with the
next cycle from that same state, however many time-outs follow one another. -/
theorem missing_state_tolerance {α : Type} [Add α] [Mul α] (use_visual_mesh : Bool)
    (meshes : meshesMap α) (root : String) (sleep_time : Int) (s : LoopState α)
    (rest : List (CycleInput α)) :
    cycle use_visual_mesh meshes root sleep_time s CycleInput.timeout =
        ([.warn "Waiting for complete state !"], .ok s) ∧
      frames (cycle use_visual_mesh meshes root sleep_time s CycleInput.timeout).1 = [] ∧
      runLoop use_visual_mesh meshes root sleep_time (CycleInput.timeout :: rest) s =
        (Event.warn "Waiting for complete state !" ::
            (runLoop use_visual_mesh meshes root sleep_time rest s).1,
          (runLoop use_visual_mesh meshes root sleep_time rest s).2) ∧
      (∀ n : Nat, runLoop use_visual_mesh meshes root sleep_time
          (List.replicate n CycleInput.timeout ++ rest) s =
        (List.replicate n (Event.warn "Waiting for complete state !") ++
            (runLoop use_visual_mesh meshes root sleep_time rest s).1,
          (runLoop use_visual_mesh meshes root sleep_time rest s).2)) :=
  ⟨rfl, rfl, rfl, fun n => runLoop_timeouts _ _ _ _ n rest s⟩

/-- C9, the behaviour of the code. When `robot_description` is not set, `main` logs
the error, enters no loop, publishes nothing, and returns the exit status 0. -/
theorem missing_description_exit {α : Type} [Add α] [Mul α] (joint_states : Option String)
    (publish_frequency : Option Int) (use_visual_mesh : Option Bool) (world : World α)
    (inputs : List (CycleInput α)) :
    main ⟨none, joint_states, publish_frequency, use_visual_mesh⟩ world inputs =
        ⟨[.info "Loading robot from the parameter server",
            .error "robot_description not found"], .ok 0⟩ ∧
      frames (main ⟨none, joint_states, publish_frequency, use_visual_mesh⟩ world
        inputs).events = [] :=
  ⟨rfl, rfl⟩

/-! ## In-bounds overwrite (C10) -/

theorem segmentCount_loaded {α : Type} (use_visual_mesh : Bool) (link_p : linkMap α)
    (h : use_visual_mesh = true → link_p.2 ≠ none) :
    segmentCount use_visual_mesh link_p = some (linkVertices use_visual_mesh link_p).length := by
  cases use_visual_mesh with
  | false => rfl
  | true =>
    cases hm : link_p.2 with
    | none => exact absurd hm (h rfl)
    | some mesh => simp [segmentCount, linkVertices, linkMeshes, hm]

theorem segmentCount_some {α : Type} (use_visual_mesh : Bool) (link_p : linkMap α) (n : Nat)
    (h : segmentCount use_visual_mesh link_p = some n) :
    use_visual_mesh = true → link_p.2 ≠ none := by
  intro hv hm
  subst hv
  simp [segmentCount, hm] at h

theorem segmentCounts_loaded {α : Type} (use_visual_mesh : Bool) (meshes : meshesMap α)
    (h : meshesLoaded use_visual_mesh meshes) :
    meshes.map (fun it => segmentCount use_visual_mesh it.2) =
      meshes.map (fun it => some (linkVertices use_visual_mesh it.2).length) := by
  apply List.map_congr_left
  intro it hit
  exact segmentCount_loaded _ _ (fun hv => h hv it hit)

theorem frameWrites_length_sum {α : Type} [Add α] [Mul α] (use_visual_mesh : Bool)
    (robot_state : RobotState α) (meshes : meshesMap α) (link_nb : Nat) :
    (frameWrites use_visual_mesh robot_state meshes link_nb).length =
      (meshes.map (fun it => (linkVertices use_visual_mesh it.2).length)).sum := by
  induction meshes generalizing link_nb with
  | nil => rfl
  | cons it rest ih =>
    simp [frameWrites, linkWrites, ih]

theorem same_counts {α : Type} [Add α] [Mul α] (use_visual_mesh : Bool)
    (meshes0 meshes : meshesMap α) (state0 state : RobotState α)
    (hl0 : meshesLoaded use_visual_mesh meshes0)
    (hcounts : meshes.map (fun it => segmentCount use_visual_mesh it.2) =
      meshes0.map (fun it => segmentCount use_visual_mesh it.2)) :
    meshesLoaded use_visual_mesh meshes ∧
      (frameWrites use_visual_mesh state meshes 0).length =
        (frameWrites use_visual_mesh state0 meshes0 0).length := by
  have hl : meshesLoaded use_visual_mesh meshes := by
    intro hv it hit
    have hmem : segmentCount use_visual_mesh it.2 ∈
        meshes.map (fun it => segmentCount use_visual_mesh it.2) :=
      List.mem_map.mpr ⟨it, hit, rfl⟩
    rw [hcounts] at hmem
    obtain ⟨it0, hit0, heq⟩ := List.mem_map.mp hmem
    have h0 := segmentCount_loaded use_visual_mesh it0.2 (fun hv => hl0 hv it0 hit0)
    rw [h0] at heq
    exact segmentCount_some _ _ _ heq.symm hv
  refine ⟨hl, ?_⟩
  rw [frameWrites_length_sum, frameWrites_length_sum]
  rw [segmentCounts_loaded _ _ hl, segmentCounts_loaded _ _ hl0] at hcounts
  have := congrArg (fun l => (l.map (fun o => Option.getD o 0)).sum) hcounts
  simpa [List.map_map, Function.comp_def] using this

theorem twoSegments_linkLoop (robot_state : RobotState ℚ) :
    linkLoop false false robot_state (storeOf twoSegments) 0 ⟨[], [], 0⟩ =
      .ok ⟨triangle.vertexList.map (fun v => placeVertex robot_state (segmentA, v)),
        [0, 0, 0], 3⟩ := by
  have h := linkLoop_fresh false robot_state (storeOf twoSegments) LoopState.init (Inv_init _ _)
    twoSegments_loaded
  have hf := twoSegments_fresh robot_state 0
  simp only [freshFrame, PointCloud.mk.injEq, true_and] at hf
  rw [twoSegments_tags, hf.1] at h
  exact h

/-- C10. Let a first pass (append mode) over a store complete and fill the buffer, and
let a later pass (overwrite mode) run over a store with the same sequence of
per-segment point counts, on a buffer of the size the first pass produced, with the
cursor reset to 0. Then the later pass is a sequence of `writePoint` calls, one per
slot of the buffer; the call number `k` finds the cursor at `k`, strictly below the
sizes of the point and tag vectors; the pass ends without a fault, with the sizes
unchanged and the cursor equal to the size. -/
theorem in_bounds_overwrite {α : Type} [Add α] [Mul α] (use_visual_mesh : Bool)
    (meshes0 meshes : meshesMap α) (state0 state : RobotState α) (b0 : Buf α)
    (points : List (Point32 α)) (values : List Nat)
    (hfirst : linkLoop false use_visual_mesh state0 meshes0 0 ⟨[], [], 0⟩ = .ok b0)
    (hcounts : meshes.map (fun it => segmentCount use_visual_mesh it.2) =
      meshes0.map (fun it => segmentCount use_visual_mesh it.2))
    (hp : points.length = b0.points.length) (hv : values.length = b0.values.length) :
    (∀ c : Buf α, linkLoop true use_visual_mesh state meshes 0 c =
      writeAll true (frameWrites use_visual_mesh state meshes 0) c) ∧
    (frameWrites use_visual_mesh state meshes 0).length = points.length ∧
    (∀ k, k < (frameWrites use_visual_mesh state meshes 0).length →
      ∃ bk, writeAll true ((frameWrites use_visual_mesh state meshes 0).take k)
          ⟨points, values, 0⟩ = .ok bk ∧
        bk.j = k ∧ bk.j < bk.points.length ∧ bk.j < bk.values.length) ∧
    (∃ b, linkLoop true use_visual_mesh state meshes 0 ⟨points, values, 0⟩ = .ok b ∧
      b.points.length = points.length ∧ b.values.length = values.length ∧
      b.j = b.points.length ∧ b.j = b.values.length) := by
  have hl0 := linkLoop_loaded _ _ _ _ _ _ _ hfirst
  rw [linkLoop_eq _ _ _ _ _ _ hl0, writeAll_false] at hfirst
  simp only [Except.ok.injEq] at hfirst
  obtain ⟨hl, hlen⟩ := same_counts use_visual_mesh meshes0 meshes state0 state hl0 hcounts
  have hb0p : b0.points.length = (frameWrites use_visual_mesh state0 meshes0 0).length := by
    rw [← hfirst]
    simp
  have hb0v : b0.values.length = (frameWrites use_visual_mesh state0 meshes0 0).length := by
    rw [← hfirst]
    simp
  have hwp : (frameWrites use_visual_mesh state meshes 0).length = points.length := by omega
  have hwv : (frameWrites use_visual_mesh state meshes 0).length = values.length := by omega
  refine ⟨fun c => linkLoop_eq _ _ _ _ _ _ hl, hwp, ?_, ?_⟩
  · intro k hk
    have hk' : ((frameWrites use_visual_mesh state meshes 0).take k).length = k := by
      rw [List.length_take]
      omega
    obtain ⟨bk, hok⟩ : ∃ bk, writeAll true ((frameWrites use_visual_mesh state meshes 0).take k)
        ⟨points, values, 0⟩ = .ok bk :=
      ⟨_, writeAll_true ((frameWrites use_visual_mesh state meshes 0).take k)
        ⟨points, values, 0⟩ (by simp only [hk']; omega) (by simp only [hk']; omega)⟩
    refine ⟨bk, hok, ?_⟩
    obtain ⟨q1, q2, q3, _⟩ := writeAll_true_inv _ _ _ hok
    simp only [hk', Nat.zero_add] at q1 q2 q3
    refine ⟨q3, ?_, ?_⟩
    · rw [q1, q3]
      omega
    · rw [q2, q3]
      omega
  · obtain ⟨b, hok⟩ : ∃ b, writeAll true (frameWrites use_visual_mesh state meshes 0)
        ⟨points, values, 0⟩ = .ok b :=
      ⟨_, writeAll_true (frameWrites use_visual_mesh state meshes 0) ⟨points, values, 0⟩
        (by simp only [Nat.zero_add]; omega) (by simp only [Nat.zero_add]; omega)⟩
    refine ⟨b, (linkLoop_eq _ _ _ _ _ _ hl).trans hok, ?_⟩
    obtain ⟨q1, q2, q3, _⟩ := writeAll_true_inv _ _ _ hok
    simp only [Nat.zero_add] at q1 q2 q3
    refine ⟨q1, q2, ?_, ?_⟩
    · rw [q1, q3]
      exact hwp
    · rw [q2, q3]
      exact hwv

/-- C10 at a concrete input: the robot `twoSegments`, first pass in the state
`liftBy5`, second pass in the state `shiftBy1` over the buffer of the first. -/
theorem in_bounds_overwrite_witness :
    linkLoop false false liftBy5 (storeOf twoSegments) 0 ⟨[], [], 0⟩ =
        .ok ⟨triangle.vertexList.map (fun v => placeVertex liftBy5 (segmentA, v)),
          [0, 0, 0], 3⟩ ∧
      (∃ b, linkLoop true false shiftBy1 (storeOf twoSegments) 0
          ⟨triangle.vertexList.map (fun v => placeVertex liftBy5 (segmentA, v)), [0, 0, 0], 0⟩ =
            .ok b ∧
        b.points.length =
          (triangle.vertexList.map (fun v => placeVertex liftBy5 (segmentA, v))).length ∧
        b.values.length = [0, 0, 0].length ∧
        b.j = b.points.length ∧ b.j = b.values.length) :=
  ⟨twoSegments_linkLoop liftBy5,
    (in_bounds_overwrite false (storeOf twoSegments) (storeOf twoSegments) liftBy5 shiftBy1 _
      _ _ (twoSegments_linkLoop liftBy5) rfl rfl rfl).2.2.2⟩

end RobotModelToPointcloud
